import Mathlib

/-!
Verification of the SimuTrador client SDK core (session multiplexer, store,
order API) against its natural-language specification.

The definitions below are a shallow embedding of the Python sources
`simutrador_client/websocket.py`, `simutrador_client/store.py` and
`simutrador_client/strategy.py`.  Python dicts are modelled as ordered
association lists (insertion order preserved, as in CPython), JSON / Python
values as the inductive `JVal`, asyncio futures as an arena of `FutState`
cells indexed by natural numbers, and the receive loop as a fold over the
list of inbound frames.  Machine floats carry no arithmetic in the client
(values are only stored), so numeric payloads are modelled as rationals.
-/

namespace Simutrador

/-- A JSON / Python value as it appears in wire frames and event payloads.
`jdt` models a Python `datetime` instance (which can occur in candle data when
the store is fed directly with already-parsed objects); plain JSON input never
contains it. -/
inductive JVal where
  | jnull : JVal
  | jbool (b : Bool) : JVal
  | jnum (q : Rat) : JVal
  | jstr (s : String) : JVal
  | jdt (t : Int) : JVal
  | jarr (xs : List JVal) : JVal
  | jobj (fields : List (String × JVal)) : JVal

/-- A Python object with named fields: a JSON object's field list, also used for
`SimpleNamespace(**data)` payloads (same fields, same lookup behaviour). -/
abbrev Obj := List (String × JVal)

/-- Ordered-dict lookup (first binding of the key wins, as dict keys are unique
in Python; our lists may in principle repeat keys, in which case the first one
is the binding). -/
def alookup {α : Type} : List (String × α) → String → Option α
  | [], _ => none
  | (k', v) :: rest, k => if k' = k then some v else alookup rest k

/-- Ordered-dict update: replace the value in place if the key is present,
otherwise append the new binding at the end (CPython insertion order). -/
def aset {α : Type} : List (String × α) → String → α → List (String × α)
  | [], k, v => [(k, v)]
  | (k', v') :: rest, k, v =>
      if k' = k then (k', v) :: rest else (k', v') :: aset rest k v

/-- Ordered-dict removal of a key (models `dict.pop(key, None)`'s mutation). -/
def aerase {α : Type} : List (String × α) → String → List (String × α)
  | [], _ => []
  | (k', v') :: rest, k => if k' = k then rest else (k', v') :: aerase rest k

/-- Python truthiness filter for `str | None` values: `None` and the empty
string are falsy. -/
def strTruthy : Option String → Option String
  | some s => if s = "" then none else some s
  | none => none

/-- The Python exceptions the embedded client code can raise or store in
futures. -/
inductive PyErr where
  | sessionProtocolError (msg : String) : PyErr
  | sessionError (sessionId : Option String) (errorCode : String) (message : String) : PyErr
  | typeError (msg : String) : PyErr
  | valueError (msg : String) : PyErr
  | attributeError (msg : String) : PyErr
  | cancelledError : PyErr
deriving DecidableEq

/-! ## Store (store.py) -/

/-- Models `store._get(obj, key, default=None)`: dict lookup or `getattr` with
default, both returning `None` when the key/attribute is absent or the value is
not an object at all. -/
def pyGet (v : JVal) (key : String) : JVal :=
  match v with
  | .jobj fields => (alookup fields key).getD .jnull
  | _ => .jnull

/-- Models the Python stdlib call `datetime.fromisoformat` used by
`_coerce_candle` (external library code, not part of this repository):
simplified to the `YYYY-MM-DD` core so that some strings parse and all others
raise `ValueError` (`none` here); the client code only depends on that
success/failure split.  The returned `Int` encodes the parsed date. -/
def fromisoformat (s : String) : Option Int :=
  match s.toList with
  | [y1, y2, y3, y4, '-', m1, m2, '-', d1, d2] =>
      if y1.isDigit && y2.isDigit && y3.isDigit && y4.isDigit &&
         m1.isDigit && m2.isDigit && d1.isDigit && d2.isDigit then
        some ((((y1.toNat - 48) * 1000 + (y2.toNat - 48) * 100 +
                (y3.toNat - 48) * 10 + (y4.toNat - 48)) * 10000 +
               ((m1.toNat - 48) * 10 + (m2.toNat - 48)) * 100 +
               ((d1.toNat - 48) * 10 + (d2.toNat - 48)) : Nat) : Int)
      else none
  | _ => none

/-- Digit fold for `parseFloat` (value of a digit list, empty list gives 0). -/
def digitsNat (cs : List Char) : Nat :=
  cs.foldl (fun a c => a * 10 + (c.toNat - 48)) 0

/-- Core of `parseFloat`: unsigned decimal literal with optional single
fraction point. -/
def parseFloatCore (cs : List Char) : Option Rat :=
  let ip := cs.takeWhile (fun c => c != '.')
  let rest := cs.dropWhile (fun c => c != '.')
  match rest with
  | [] => if ip ≠ [] ∧ ip.all Char.isDigit then some ((digitsNat ip : Nat) : Rat) else none
  | _ :: fp =>
      if (ip ≠ [] ∨ fp ≠ []) ∧ ip.all Char.isDigit ∧ fp.all Char.isDigit then
        some (((digitsNat ip : Nat) : Rat) + ((digitsNat fp : Nat) : Rat) / ((10 : Rat) ^ fp.length))
      else none

/-- Models the Python builtin `float(str)` conversion used by `_f` in
`_coerce_candle` (external builtin, not repository code): accepts optionally
signed decimal literals, rejecting everything else; exotic accepted spellings
(exponents, `inf`, `nan`) are irrelevant to the claims and omitted. -/
def parseFloat (s : String) : Option Rat :=
  match s.trim.toList with
  | '-' :: rest => (parseFloatCore rest).map Neg.neg
  | '+' :: rest => parseFloatCore rest
  | cs => parseFloatCore cs

/-- Models `_f(v)` from `_coerce_candle`: `float(v)` for ints/floats/Decimals
(and bools, which are ints in Python), `float(str(v))` as fallback for string
values; every other value makes both conversions raise, so the coercion
fails. -/
def pyFloat : JVal → Option Rat
  | .jnum q => some q
  | .jbool b => some (if b then 1 else 0)
  | .jstr s => parseFloat s
  | _ => none

/-- Models `_coerce_candle(candle)`: the date field must be a `datetime` or a
string that `fromisoformat` accepts, then the five OHLCV fields are coerced to
float; any failure raises (is returned as `Except.error`). -/
def coerceCandle (candle : JVal) : Except PyErr (Int × Rat × Rat × Rat × Rat × Rat) := do
  let d : Int ←
    match pyGet candle "date" with
    | .jstr s =>
        match fromisoformat s with
        | some t => pure t
        | none => throw (.valueError "Invalid isoformat string")
    | .jdt t => pure t
    | _ => throw (.typeError "candle.date must be datetime or ISO string")
  let o : Rat ←
    match pyFloat (pyGet candle "open") with
    | some x => pure x | none => throw (.valueError "could not convert to float")
  let h : Rat ←
    match pyFloat (pyGet candle "high") with
    | some x => pure x | none => throw (.valueError "could not convert to float")
  let lo : Rat ←
    match pyFloat (pyGet candle "low") with
    | some x => pure x | none => throw (.valueError "could not convert to float")
  let c : Rat ←
    match pyFloat (pyGet candle "close") with
    | some x => pure x | none => throw (.valueError "could not convert to float")
  let v : Rat ←
    match pyFloat (pyGet candle "volume") with
    | some x => pure x | none => throw (.valueError "could not convert to float")
  return (d, o, h, lo, c, v)

/-- `_Series`: the six parallel per-symbol sequences. (`open` is a Lean
keyword, hence the trailing underscore.) -/
structure Series where
  date : List Int
  open_ : List Rat
  high : List Rat
  low : List Rat
  close : List Rat
  volume : List Rat
deriving DecidableEq

/-- `_Series.empty()`. -/
def Series.empty : Series := ⟨[], [], [], [], [], []⟩

/-- One coerced candle appended to every field sequence (the six `append`
calls of `apply_history_snapshot` / `apply_tick`). -/
def Series.append1 (ser : Series) (d : Int) (o h lo c v : Rat) : Series :=
  ⟨ser.date ++ [d], ser.open_ ++ [o], ser.high ++ [h],
   ser.low ++ [lo], ser.close ++ [c], ser.volume ++ [v]⟩

/-- `Store`: per-symbol series, keyed by symbol in insertion order. -/
structure Store where
  bySymbol : List (String × Series)
deriving DecidableEq

/-- Models `_iter_candles(arr)`: lists pass through; `list()` of a string
yields its characters (as one-character strings), of a dict its keys; anything
non-iterable raises and is caught, yielding `[]`. -/
def iterCandles : JVal → List JVal
  | .jarr xs => xs
  | .jstr s => s.toList.map (fun c => .jstr (String.mk [c]))
  | .jobj fields => fields.map (fun p => JVal.jstr p.1)
  | _ => []

/-- The candle loop of `apply_history_snapshot` for one symbol's candle list:
appends coerced candles in order; on the first coercion failure the appends so
far are kept (the Python exception propagates after the in-place mutations). -/
def applyCandlesToSeries : Series → List JVal → Series × Option PyErr
  | ser, [] => (ser, none)
  | ser, c :: rest =>
      match coerceCandle c with
      | .error e => (ser, some e)
      | .ok (d, o, h, lo, cl, v) => applyCandlesToSeries (ser.append1 d o h lo cl v) rest

/-- The symbol loop of `apply_history_snapshot`: `setdefault` creates the
series entry before the candles are processed, so a partially processed store
keeps the entry (and any earlier appends) when a coercion error propagates. -/
def applyHistoryEntries : Store → List (String × JVal) → Store × Option PyErr
  | st, [] => (st, none)
  | st, (sym, arr) :: rest =>
      let ser := (alookup st.bySymbol sym).getD Series.empty
      let (ser', errOpt) := applyCandlesToSeries ser (iterCandles arr)
      let st' : Store := ⟨aset st.bySymbol sym ser'⟩
      match errOpt with
      | some e => (st', some e)
      | none => applyHistoryEntries st' rest

/-- `Store.apply_history_snapshot(snapshot)`: a missing or non-dict candle map
is a silent no-op; otherwise every symbol's candle list is appended in order.
The second component is the exception that escaped, if any (the first
component is the store as mutated up to that point). -/
def Store.apply_history_snapshot (st : Store) (snapshot : JVal) : Store × Option PyErr :=
  match pyGet snapshot "candles" with
  | .jobj entries => applyHistoryEntries st entries
  | _ => (st, none)

/-- The symbol loop of `apply_tick`: exactly one candle per symbol present in
the tick's candle map; `setdefault` runs before the coercion, so the entry
exists even when the candle fails to coerce. -/
def applyTickEntries : Store → List (String × JVal) → Store × Option PyErr
  | st, [] => (st, none)
  | st, (sym, c) :: rest =>
      let ser := (alookup st.bySymbol sym).getD Series.empty
      match coerceCandle c with
      | .error e => (⟨aset st.bySymbol sym ser⟩, some e)
      | .ok (d, o, h, lo, cl, v) =>
          applyTickEntries ⟨aset st.bySymbol sym (ser.append1 d o h lo cl v)⟩ rest

/-- `Store.apply_tick(tick)`. -/
def Store.apply_tick (st : Store) (tick : JVal) : Store × Option PyErr :=
  match pyGet tick "candles" with
  | .jobj entries => applyTickEntries st entries
  | _ => (st, none)

/-- `Store.from_history(snapshot)`: a fresh store with the snapshot applied;
on a coercion error the partially built store is local to the call and
discarded by the caller (`_dispatch` never assigns it). -/
def Store.from_history (snapshot : JVal) : Store × Option PyErr :=
  Store.apply_history_snapshot ⟨[]⟩ snapshot

/-- Length of the per-symbol series (0 when the symbol is unknown), measured
on the `date` sequence. -/
def Store.lenOf (st : Store) (sym : String) : Nat :=
  match alookup st.bySymbol sym with
  | some ser => ser.date.length
  | none => 0

/-- All six field sequences of a series have equal length. -/
def Series.balanced (ser : Series) : Prop :=
  ser.open_.length = ser.date.length ∧ ser.high.length = ser.date.length ∧
  ser.low.length = ser.date.length ∧ ser.close.length = ser.date.length ∧
  ser.volume.length = ser.date.length

instance (ser : Series) : Decidable ser.balanced := by
  unfold Series.balanced; infer_instance

/-- The store invariant: every symbol's six sequences have equal length. -/
def Store.balanced (st : Store) : Prop :=
  ∀ p ∈ st.bySymbol, Series.balanced p.2

/-! ## Session multiplexer (websocket.py) -/

/-- The state of one `asyncio.Future`: unresolved, resolved with a payload
(`set_result`), rejected with an exception (`set_exception`), or cancelled. -/
inductive FutState where
  | pending : FutState
  | value (v : Obj) : FutState
  | failed (e : PyErr) : FutState
  | cancelled : FutState

/-- A strategy callback invocation, as dispatched by the receive loop.  Each
inbound frame invokes at most one callback. -/
inductive CbEvent where
  | start (sid : String) : CbEvent
  | tick (sid : String) : CbEvent
  | fill (sid : String) : CbEvent
  | account (sid : String) : CbEvent
  | sessionEnd (sid : String) : CbEvent
deriving DecidableEq

/-- The mutable state of a `SimutradorClientSession`.  Futures live in an
arena (`futures`, indexed by creation order) so that a future stays reachable
by the task awaiting it even after its map entry has been popped; the maps
hold arena indices.  `hist_waiter` / `end_waiter` are the `history` / `ended`
slots of `_pending_by_session` (an absent key behaves exactly like a present
key holding `None`, because every access goes through `setdefault` or a
`None` check). -/
structure ClientState where
  futures : List FutState
  pending_by_request : List (String × Nat)
  hist_waiter : List (String × Option Nat)
  end_waiter : List (String × Option Nat)
  req_meta_by_rid : List (String × Obj)
  session_meta : List (String × Obj)
  tick_queues : List (String × List Obj)
  fill_queues : List (String × List Obj)
  account_queues : List (String × List Obj)
  stores : List (String × Store)
  store_ready : List String
  sent : List (String × String × Obj)
  closed : Bool

/-- The state right after `connect()`: no futures, no sessions, loop live. -/
def initialState : ClientState :=
  ⟨[], [], [], [], [], [], [], [], [], [], [], [], false⟩

/-- Reading a future cell from the arena. -/
def futGet (st : ClientState) (fid : Nat) : Option FutState :=
  st.futures.get? fid

/-- Writing a future cell (models `set_result` / `set_exception` / cancel). -/
def futSet (st : ClientState) (fid : Nat) (f : FutState) : ClientState :=
  { st with futures := st.futures.set fid f }

/-- `fut.done()`: anything but pending counts as done (an unallocated index
never occurs in reachable states; it is treated as done so no write happens). -/
def futDone (st : ClientState) (fid : Nat) : Bool :=
  match futGet st fid with
  | some .pending => false
  | _ => true

/-- `asyncio.get_running_loop().create_future()`: allocate a fresh pending
future and return its arena index. -/
def newFuture (st : ClientState) : ClientState × Nat :=
  ({ st with futures := st.futures ++ [.pending] }, st.futures.length)

/-- `self._pending_by_request.pop(rid, None)`: the entry is removed from the
map whether or not the future is done; the future object itself survives in
the arena. -/
def popPending (st : ClientState) (rid : String) : Option Nat × ClientState :=
  (alookup st.pending_by_request rid,
   { st with pending_by_request := aerase st.pending_by_request rid })

/-- `_get_queue(mapping, sid).put_nowait(payload)`: lazily create the queue,
then append. -/
def qpush (qs : List (String × List Obj)) (sid : String) (payload : Obj) :
    List (String × List Obj) :=
  aset qs sid (((alookup qs sid).getD []) ++ [payload])

/-- `data` extraction of `_dispatch`: a non-object (or absent) `data` field
defaults to the empty object. -/
def envData (obj : Obj) : Obj :=
  match alookup obj "data" with
  | some (.jobj fs) => fs
  | _ => []

/-- `request_id` extraction of `_dispatch`: kept only when it is a string. -/
def envRid (obj : Obj) : Option String :=
  match alookup obj "request_id" with
  | some (.jstr s) => some s
  | _ => none

/-- String-valued field lookup inside a payload (`isinstance(x, str)` guard
used for `session_id` and `message`). -/
def dataStr (data : Obj) (k : String) : Option String :=
  match alookup data k with
  | some (.jstr s) => some s
  | _ => none

/-- The `session_created` branch of `_dispatch`: pop the pending request by
`request_id`; when its future is still open, resolve it with `data` if
`data.session_id` is a string (also moving the request metadata to the
session), else reject it with a protocol error. -/
def dispatchSessionCreated (st : ClientState) (data : Obj) (rid : Option String) :
    ClientState :=
  match strTruthy rid with
  | none => st
  | some r =>
      let (fidOpt, st1) := popPending st r
      match fidOpt with
      | none => st1
      | some fid =>
          if futDone st1 fid then st1
          else
            match alookup data "session_id" with
            | some (.jstr sid) =>
                let st2 := futSet st1 fid (.value data)
                match alookup st2.req_meta_by_rid r with
                | some meta =>
                    { st2 with
                      req_meta_by_rid := aerase st2.req_meta_by_rid r,
                      session_meta := aset st2.session_meta sid meta }
                | none => st2
            | _ =>
                futSet st1 fid
                  (.failed (.sessionProtocolError
                    "Invalid session_created payload: missing session_id"))

/-- The `history_snapshot` branch of `_dispatch`: build a fresh store from the
snapshot (a coercion error escapes before anything is assigned), install it,
latch the store-ready event, resolve a still-open history waiter, and invoke
`on_session_start`. -/
def dispatchHistorySnapshot (st : ClientState) (data : Obj) :
    ClientState × Option CbEvent × Option PyErr :=
  match strTruthy (dataStr data "session_id") with
  | none => (st, none, none)
  | some sid =>
      let (store, errOpt) := Store.from_history (.jobj data)
      match errOpt with
      | some e => (st, none, some e)
      | none =>
          let st1 :=
            { st with
              stores := aset st.stores sid store,
              store_ready :=
                if sid ∈ st.store_ready then st.store_ready else st.store_ready ++ [sid] }
          let st2 :=
            match alookup st1.hist_waiter sid with
            | some (some fid) =>
                if futDone st1 fid then st1 else futSet st1 fid (.value data)
            | _ => st1
          (st2, some (.start sid), none)

/-- The error code extracted from a `session_error` payload:
`data.get("error_code", "UNKNOWN")` with a non-string value also degraded to
`"UNKNOWN"`. -/
def errorCodeOf (data : Obj) : String :=
  match alookup data "error_code" with
  | some (.jstr c) => c
  | some _ => "UNKNOWN"
  | none => "UNKNOWN"

/-- The `SessionError` built from a `session_error` payload: carries the
payload's `session_id` (unfiltered), its error code and its message (`""`
when absent or non-string). -/
def sessionErrorOf (data : Obj) : PyErr :=
  .sessionError (dataStr data "session_id") (errorCodeOf data) ((dataStr data "message").getD "")

/-- First half of the `session_error` branch of `_dispatch`: reject a
still-open history waiter of the session named (truthily) by the payload. -/
def sessionErrorHistPhase (st : ClientState) (data : Obj) : ClientState :=
  match strTruthy (dataStr data "session_id") with
  | some s =>
      match alookup st.hist_waiter s with
      | some (some fid) =>
          if futDone st fid then st else futSet st fid (.failed (sessionErrorOf data))
      | _ => st
  | none => st

/-- Second half of the `session_error` branch: pop the pending request named
(truthily) by `request_id` and reject it if still open. -/
def sessionErrorRidPhase (st1 : ClientState) (data : Obj) (rid : Option String) :
    ClientState :=
  match strTruthy rid with
  | none => st1
  | some r =>
      let (fidOpt, st2) := popPending st1 r
      match fidOpt with
      | none => st2
      | some fid =>
          if futDone st2 fid then st2
          else futSet st2 fid (.failed (sessionErrorOf data))

def dispatchSessionError (st : ClientState) (data : Obj) (rid : Option String) :
    ClientState :=
  sessionErrorRidPhase (sessionErrorHistPhase st data) data rid

/-- The `batch_ack` branch of `_dispatch`: pop the pending request by
`request_id` and resolve it with `data` when still open. -/
def dispatchBatchAck (st : ClientState) (data : Obj) (rid : Option String) :
    ClientState :=
  match strTruthy rid with
  | none => st
  | some r =>
      let (fidOpt, st1) := popPending st r
      match fidOpt with
      | none => st1
      | some fid => if futDone st1 fid then st1 else futSet st1 fid (.value data)

/-- The `tick` branch of `_dispatch`: when a store exists for the session, the
tick is applied to it (a coercion error escapes after the in-place partial
mutation, before the queue push and before `on_tick`); otherwise the store and
strategy are skipped.  In all non-error cases the tick payload is pushed to
the session's tick queue. -/
def dispatchTick (st : ClientState) (data : Obj) :
    ClientState × Option CbEvent × Option PyErr :=
  match strTruthy (dataStr data "session_id") with
  | none => (st, none, none)
  | some sid =>
      match alookup st.stores sid with
      | some store =>
          let (store', errOpt) := store.apply_tick (.jobj data)
          let st1 := { st with stores := aset st.stores sid store' }
          match errOpt with
          | some e => (st1, none, some e)
          | none =>
              ({ st1 with tick_queues := qpush st1.tick_queues sid data },
               some (.tick sid), none)
      | none =>
          ({ st with tick_queues := qpush st.tick_queues sid data }, none, none)

/-- The `execution_report` branch of `_dispatch`: push to the fill queue, then
invoke `on_fill` only when a store exists. -/
def dispatchExecutionReport (st : ClientState) (data : Obj) :
    ClientState × Option CbEvent :=
  match strTruthy (dataStr data "session_id") with
  | none => (st, none)
  | some sid =>
      let st1 := { st with fill_queues := qpush st.fill_queues sid data }
      match alookup st1.stores sid with
      | some _ => (st1, some (.fill sid))
      | none => (st1, none)

/-- The `account_snapshot` branch of `_dispatch`: push to the account queue,
then invoke `on_account_snapshot` only when a store exists. -/
def dispatchAccountSnapshot (st : ClientState) (data : Obj) :
    ClientState × Option CbEvent :=
  match strTruthy (dataStr data "session_id") with
  | none => (st, none)
  | some sid =>
      let st1 := { st with account_queues := qpush st.account_queues sid data }
      match alookup st1.stores sid with
      | some _ => (st1, some (.account sid))
      | none => (st1, none)

/-- Allocate a fresh future into the `ended` slot of a session (the
`p.ended = create_future()` assignment of the `simulation_end` branch and of
`wait_for_simulation_end`). -/
def freshEndWaiter (st : ClientState) (sid : String) : ClientState × Nat :=
  let (st1, fid) := newFuture st
  ({ st1 with end_waiter := aset st1.end_waiter sid (some fid) }, fid)

/-- The waiter-resolution step of the `simulation_end` branch: ensure a live
`ended` future (replacing an absent or done one by a fresh future), then
resolve it with `data`. -/
def simulationEndResolveWaiter (st : ClientState) (sid : String) (data : Obj) : ClientState :=
  let cur : Option Nat := (alookup st.end_waiter sid).getD none
  let step :=
    match cur with
    | some fid => if futDone st fid then freshEndWaiter st sid else (st, fid)
    | none => freshEndWaiter st sid
  let st1 := step.1
  let fid := step.2
  if futDone st1 fid then st1 else futSet st1 fid (.value data)

/-- The `simulation_end` branch of `_dispatch`: resolve the `ended` waiter
with `data`, then invoke `on_session_end` only when a store exists. -/
def dispatchSimulationEnd (st : ClientState) (data : Obj) :
    ClientState × Option CbEvent :=
  match strTruthy (dataStr data "session_id") with
  | none => (st, none)
  | some sid =>
      let st2 := simulationEndResolveWaiter st sid data
      match alookup st2.stores sid with
      | some _ => (st2, some (.sessionEnd sid))
      | none => (st2, none)

/-- The `type` discriminator of `_dispatch`'s envelope; a non-string (or
absent) `type` becomes `""`, which matches no branch. -/
def envTypeName (obj : Obj) : String :=
  match alookup obj "type" with
  | some (.jstr s) => s
  | _ => ""

/-- `_dispatch(obj)` for an envelope that is a JSON object: branch on the
`type` discriminator exactly as the source does.  Returns the new state, the
callback invoked (if any) and the exception that escaped the branch (if any;
only store coercion errors can). -/
def dispatch (st : ClientState) (obj : Obj) : ClientState × Option CbEvent × Option PyErr :=
  if envTypeName obj = "session_created" then
    (dispatchSessionCreated st (envData obj) (envRid obj), none, none)
  else if envTypeName obj = "history_snapshot" then dispatchHistorySnapshot st (envData obj)
  else if envTypeName obj = "session_error" then
    (dispatchSessionError st (envData obj) (envRid obj), none, none)
  else if envTypeName obj = "batch_ack" then
    (dispatchBatchAck st (envData obj) (envRid obj), none, none)
  else if envTypeName obj = "tick" then dispatchTick st (envData obj)
  else if envTypeName obj = "execution_report" then
    ((dispatchExecutionReport st (envData obj)).1,
     (dispatchExecutionReport st (envData obj)).2, none)
  else if envTypeName obj = "account_snapshot" then
    ((dispatchAccountSnapshot st (envData obj)).1,
     (dispatchAccountSnapshot st (envData obj)).2, none)
  else if envTypeName obj = "simulation_end" then
    ((dispatchSimulationEnd st (envData obj)).1,
     (dispatchSimulationEnd st (envData obj)).2, none)
  else (st, none, none)

/-- Reject (set to `failed e`) each listed future that is still pending, in
list order. -/
def failIds (e : PyErr) : List FutState → List Nat → List FutState
  | fs, [] => fs
  | fs, fid :: rest =>
      match fs.get? fid with
      | some .pending => failIds e (fs.set fid (.failed e)) rest
      | _ => failIds e fs rest

/-- `_fail_all_pending(exc)`: reject every still-open pending-request future
and every still-open per-session *history* waiter (in iteration order), then
clear both maps.  The `ended` futures are not rejected (the source iterates
only `p.history`); clearing `_pending_by_session` merely drops the references
to them. -/
def fail_all_pending (st : ClientState) (e : PyErr) : ClientState :=
  { st with
    futures := failIds e st.futures
      (st.pending_by_request.map Prod.snd ++ st.hist_waiter.filterMap Prod.snd),
    pending_by_request := [], hist_waiter := [], end_waiter := [] }

/-- One raw inbound text frame, as seen by `_recv_loop`: either `json.loads`
raises on it, or it parses to some JSON value (not necessarily an object). -/
inductive RawFrame where
  | unparsable : RawFrame
  | parsed (v : JVal) : RawFrame

/-- The terminal error used by `_recv_loop`'s catch-all. -/
def recvLoopFailure : PyErr := .sessionProtocolError "WebSocket receive loop failed"

/-- One iteration of `_recv_loop` on one frame.  An unparsable frame is
skipped (`continue`).  A parsed JSON object goes through `_dispatch`; if an
exception escapes `_dispatch` (store coercion during `history_snapshot` /
`tick`), the loop's catch-all fails all pending futures and the loop stops.
A parsed frame whose top level is not an object also reaches `_dispatch`,
where `obj.get` raises `AttributeError`, taking the same catch-all path.
The boolean is true when the loop terminates at this frame. -/
def recvStep (st : ClientState) (f : RawFrame) :
    ClientState × Option CbEvent × Bool :=
  match f with
  | .unparsable => (st, none, false)
  | .parsed (.jobj fields) =>
      let r := dispatch st fields
      match r.2.2 with
      | none => (r.1, r.2.1, false)
      | some _ => (fail_all_pending r.1 recvLoopFailure, r.2.1, true)
  | .parsed _ => (fail_all_pending st recvLoopFailure, none, true)

/-- `_recv_loop` over a list of inbound frames: processes frames in order,
stopping early when an iteration is fatal (or when the session has been
closed).  Returns the final state, the callback trace in invocation order,
and whether the loop stopped abnormally. -/
def recvLoop : ClientState → List RawFrame → ClientState × List CbEvent × Bool
  | st, [] => (st, [], false)
  | st, f :: fs =>
      if st.closed then (st, [], false)
      else
        let r := recvStep st f
        if r.2.2 then (r.1, r.2.1.toList, true)
        else
          let rest := recvLoop r.1 fs
          (rest.1, r.2.1.toList ++ rest.2.1, rest.2.2)

/-! ## Public facade operations (websocket.py) -/

/-- `close()`: sets the closed flag, cancels the reader task (the receive loop
re-raises `CancelledError`, so `_fail_all_pending` is *not* called on this
path) and closes the transport.  No outstanding future is resolved, rejected
or cancelled by this call. -/
def close (st : ClientState) : ClientState :=
  { st with closed := true }

/-- `setdefault(self._pending_by_session, sid, _Pending())`: make the session
entry exist (with empty waiter slots) if it does not yet. -/
def ensureSession (st : ClientState) (sid : String) : ClientState :=
  { st with
    hist_waiter :=
      if (alookup st.hist_waiter sid).isSome then st.hist_waiter
      else st.hist_waiter ++ [(sid, none)],
    end_waiter :=
      if (alookup st.end_waiter sid).isSome then st.end_waiter
      else st.end_waiter ++ [(sid, none)] }

/-- The synchronous prefix of `start_simulation` (lines up to `await fut`):
record the request metadata under the request id, create and register the
correlation future, and send the `start_simulation` envelope. -/
def start_simulation_send (st : ClientState) (rid : String) (reqData : Obj) :
    ClientState × Nat :=
  let st0 := { st with req_meta_by_rid := aset st.req_meta_by_rid rid reqData }
  let (st1, fid) := newFuture st0
  ({ st1 with
     pending_by_request := aset st1.pending_by_request rid fid,
     sent := st1.sent ++ [("start_simulation", rid, reqData)] }, fid)

/-- `await fut` on an arena future: a resolved value is returned, a stored
exception is re-raised, a cancelled future raises `CancelledError`, and a
still-pending future blocks the caller (`none`). -/
def awaitFuture (st : ClientState) (fid : Nat) : Option (Except PyErr Obj) :=
  match futGet st fid with
  | some (.value d) => some (.ok d)
  | some (.failed e) => some (.error e)
  | some .cancelled => some (.error .cancelledError)
  | _ => none

/-- The rest of `start_simulation` after `created = await fut`: require a
string `session_id` in the resolved payload (else raise a protocol error),
create the per-session pending holder, and return the session id. -/
def start_simulation_resume (st : ClientState) (created : Obj) :
    Except PyErr (ClientState × String) :=
  match alookup created "session_id" with
  | some (.jstr sid) => .ok (ensureSession st sid, sid)
  | _ =>
      .error (.sessionProtocolError
        "Invalid session_created payload: missing or non-string session_id")

/-- The synchronous prefix of `submit_orders` (lines up to `await fut`):
build the order-batch payload, create and register the correlation future,
and send the `order_batch` envelope. -/
def submit_orders_send (st : ClientState) (sessionId : String) (orders : List JVal)
    (batchId execMode rid : String) : ClientState × Nat :=
  let data : Obj :=
    [("session_id", .jstr sessionId), ("batch_id", .jstr batchId),
     ("orders", .jarr orders), ("execution_mode", .jstr execMode)]
  let (st1, fid) := newFuture st
  ({ st1 with
     pending_by_request := aset st1.pending_by_request rid fid,
     sent := st1.sent ++ [("order_batch", rid, data)] }, fid)

/-- Modelled from the spec: `submit_orders_nowait` (and its wrapper
`place_bracket_order_nowait`) is part of the facade's documented surface and
is exercised by the repository's tests, but its implementation is not among
the sources.  Per the spec (§4.4, §5) the nowait form schedules the same
order-batch request as an independent background task and returns a handle
immediately, without awaiting the ack inline; the scheduled task performs
`submit_orders`' registration/send prefix and is the only awaiter of the ack
future.  It is modelled here as performing that prefix and returning the
un-awaited ack future as the handle. -/
def submit_orders_nowait (st : ClientState) (sessionId : String) (orders : List JVal)
    (batchId execMode rid : String) : ClientState × Nat :=
  submit_orders_send st sessionId orders batchId execMode rid

/-- The arming prefix of `wait_for_simulation_end` (everything before the
await): `setdefault` the session entry, replace an absent or done `ended`
future by a fresh one, and return the future the caller then awaits. -/
def wait_for_simulation_end_arm (st : ClientState) (sid : String) : ClientState × Nat :=
  let st0 := ensureSession st sid
  match (alookup st0.end_waiter sid).getD none with
  | some fid => if futDone st0 fid then freshEndWaiter st0 sid else (st0, fid)
  | none => freshEndWaiter st0 sid

/-- Allocate a fresh future into the `history` slot of a session. -/
def freshHistWaiter (st : ClientState) (sid : String) : ClientState × Nat :=
  let (st1, fid) := newFuture st
  ({ st1 with hist_waiter := aset st1.hist_waiter sid (some fid) }, fid)

/-- The arming prefix of `wait_for_history_snapshot` (everything before the
await): `setdefault` the session entry, replace an absent or done `history`
future by a fresh one, and return the future the caller then awaits. -/
def wait_for_history_snapshot_arm (st : ClientState) (sid : String) : ClientState × Nat :=
  let st0 := ensureSession st sid
  match (alookup st0.hist_waiter sid).getD none with
  | some fid => if futDone st0 fid then freshHistWaiter st0 sid else (st0, fid)
  | none => freshHistWaiter st0 sid

/-- Models a caller-side `asyncio.wait_for` timeout on an awaited future: the
inner future is cancelled (if still pending) and the caller gets a timeout
error instead of a result. -/
def cancelFuture (st : ClientState) (fid : Nat) : ClientState :=
  match futGet st fid with
  | some .pending => futSet st fid .cancelled
  | _ => st

/-! ## Derived notions used by the statements -/

/-- Fold `apply_tick` over a list of ticks, stopping at the first escaping
coercion error (as the enclosing dispatch would). -/
def applyTicks : Store → List JVal → Store × Option PyErr
  | st, [] => (st, none)
  | st, t :: ts =>
      match st.apply_tick t with
      | (st', none) => applyTicks st' ts
      | (st', some e) => (st', some e)

/-- How many entries of a candle map name a given symbol (with unique dict
keys this is 0 or 1). -/
def countKey (entries : List (String × JVal)) (sym : String) : Nat :=
  (entries.filter (fun p => p.1 == sym)).length

/-- Number of candles a tick payload carries for a symbol. -/
def tickCount (tick : JVal) (sym : String) : Nat :=
  match pyGet tick "candles" with
  | .jobj entries => countKey entries sym
  | _ => 0

/-- Number of warmup candles a history snapshot carries for a symbol. -/
def snapCount (snapshot : JVal) (sym : String) : Nat :=
  match pyGet snapshot "candles" with
  | .jobj entries =>
      (((entries.filter (fun p => p.1 == sym)).map
        (fun p => (iterCandles p.2).length)).sum)
  | _ => 0

/-- The callback kinds that are only ever invoked for a session whose store
exists (everything except `on_session_start`). -/
def needsStore (ev : CbEvent) (sid : String) : Prop :=
  ev = .tick sid ∨ ev = .fill sid ∨ ev = .account sid ∨ ev = .sessionEnd sid

instance (ev : CbEvent) (sid : String) : Decidable (needsStore ev sid) := by
  unfold needsStore; infer_instance

/-! ## Concrete fixtures (used by the closed example theorems) -/

/-- A state with a pending request `"r1"` (future 0) and a pending history
waiter for session `"s1"` (future 1). -/
def exErrState : ClientState :=
  { initialState with
    futures := [.pending, .pending],
    pending_by_request := [("r1", 0)],
    hist_waiter := [("s1", some 1)] }

/-- A `session_error` envelope for request `"r1"` / session `"s1"`. -/
def exErrEnv : Obj :=
  [("type", .jstr "session_error"), ("request_id", .jstr "r1"),
   ("data", .jobj [("session_id", .jstr "s1"), ("error_code", .jstr "E"),
                   ("message", .jstr "boom")])]

/-- A state whose session `"s1"` has an unresolved *end* waiter (future 0). -/
def exEndWaiterState : ClientState :=
  { initialState with
    futures := [.pending],
    end_waiter := [("s1", some 0)] }

/-- A `simulation_end` envelope for session `"s1"`. -/
def exEndEnv : Obj :=
  [("type", .jstr "simulation_end"), ("data", .jobj [("session_id", .jstr "s1")])]

/-- A state with a pending request `"r1"` (future 0) and a pending *end*
waiter for session `"s1"` (future 1). -/
def exC4State : ClientState :=
  { initialState with
    futures := [.pending, .pending],
    pending_by_request := [("r1", 0)],
    end_waiter := [("s1", some 1)] }

/-- A well-formed `batch_ack` envelope for request `"r9"`. -/
def exAckEnv : Obj :=
  [("type", .jstr "batch_ack"), ("request_id", .jstr "r9"),
   ("data", .jobj [("batch_id", .jstr "b1"), ("accepted_orders", .jarr []),
                   ("rejected_orders", .jobj [])])]

/-- A state with a warm session `"s1"` (empty store) and a pending history
waiter for a different session `"s2"` (future 0). -/
def exC9State : ClientState :=
  { initialState with
    futures := [.pending],
    stores := [("s1", ⟨[]⟩)],
    hist_waiter := [("s2", some 0)] }

/-- A tick for session `"s1"` whose candle has an unparseable date, so the
store coercion raises during dispatch. -/
def exBadTickEnv : Obj :=
  [("type", .jstr "tick"),
   ("data", .jobj [("session_id", .jstr "s1"),
                   ("candles", .jobj [("AAPL", .jobj [("date", .jstr "garbage")])])])]

/-- A well-formed candle payload. -/
def exCandle (day : String) (px : Rat) : JVal :=
  .jobj [("date", .jstr day), ("open", .jnum px), ("high", .jnum (px + 1)),
         ("low", .jnum (px - 1)), ("close", .jnum px), ("volume", .jnum 100)]

/-- A warmup snapshot carrying two `"AAPL"` candles. -/
def exSnap : JVal :=
  .jobj [("candles", .jobj
    [("AAPL", .jarr [exCandle "2020-01-02" 10, exCandle "2020-01-03" 11])])]

/-- A tick carrying one `"AAPL"` candle. -/
def exTick : JVal :=
  .jobj [("candles", .jobj [("AAPL", exCandle "2020-01-06" 12)])]

/-- A `history_snapshot` envelope for session `"s1"` with an empty candle map. -/
def exC8Hist : Obj :=
  [("type", .jstr "history_snapshot"),
   ("data", .jobj [("session_id", .jstr "s1"), ("candles", .jobj [])])]

/-- A `tick` envelope for session `"s1"` with an empty candle map. -/
def exC8Tick : Obj :=
  [("type", .jstr "tick"),
   ("data", .jobj [("session_id", .jstr "s1"), ("candles", .jobj [])])]

/-- A full single-session frame stream: warmup, one tick, simulation end. -/
def exC8Frames : List RawFrame :=
  [.parsed (.jobj exC8Hist), .parsed (.jobj exC8Tick), .parsed (.jobj exEndEnv)]

/-- The prefix of `exC8Frames` before the `simulation_end` frame. -/
def exC8Prefix : List RawFrame :=
  [.parsed (.jobj exC8Hist), .parsed (.jobj exC8Tick)]

/-! ## Helper lemmas -/

theorem alookup_aset_self {α : Type} (m : List (String × α)) (k : String) (v : α) :
    alookup (aset m k v) k = some v := by
  induction m with
  | nil => simp [aset, alookup]
  | cons p rest ih =>
      obtain ⟨k', v'⟩ := p
      by_cases h : k' = k
      · simp [aset, alookup, h]
      · simp [aset, alookup, h, ih]

theorem alookup_aset_ne {α : Type} (m : List (String × α)) (k k' : String) (v : α)
    (h : k' ≠ k) : alookup (aset m k v) k' = alookup m k' := by
  induction m with
  | nil => simp [aset, alookup, Ne.symm h]
  | cons p rest ih =>
      obtain ⟨k'', v''⟩ := p
      by_cases hk : k'' = k
      · subst hk
        simp [aset, alookup, Ne.symm h]
      · simp only [aset, if_neg hk, alookup]
        by_cases hk' : k'' = k'
        · simp [hk']
        · simp [hk', ih]

theorem mem_aset {α : Type} (m : List (String × α)) (k : String) (v : α) (p : String × α)
    (h : p ∈ aset m k v) : p ∈ m ∨ p = (k, v) := by
  induction m with
  | nil => simpa [aset] using h
  | cons q rest ih =>
      obtain ⟨k', v'⟩ := q
      by_cases hk : k' = k
      · simp only [aset, if_pos hk] at h
        rcases List.mem_cons.1 h with h1 | h1
        · right; rw [h1, hk]
        · left; exact List.mem_cons_of_mem _ h1
      · simp only [aset, if_neg hk] at h
        rcases List.mem_cons.1 h with h1 | h1
        · left; exact h1 ▸ List.mem_cons_self _ _
        · rcases ih h1 with h2 | h2
          · left; exact List.mem_cons_of_mem _ h2
          · right; exact h2

theorem futGet_newFuture (st : ClientState) :
    futGet (newFuture st).1 (newFuture st).2 = some .pending := by
  simp [newFuture, futGet, List.get?_append_right]

theorem futGet_lt_length (st : ClientState) (fid : Nat) (x : FutState)
    (h : futGet st fid = some x) : fid < st.futures.length := by
  by_contra hc
  unfold futGet at h
  rw [List.get?_eq_none.2 (Nat.le_of_not_lt hc)] at h
  cases h

theorem futGet_newFuture_old (st : ClientState) (fid : Nat) (h : fid < st.futures.length) :
    futGet (newFuture st).1 fid = futGet st fid := by
  unfold newFuture futGet
  exact List.get?_append h

theorem futGet_futSet_self (st : ClientState) (fid : Nat) (f : FutState)
    (x : FutState) (h : futGet st fid = some x) :
    futGet (futSet st fid f) fid = some f := by
  unfold futGet futSet
  exact List.get?_set_eq_of_lt f (futGet_lt_length st fid x h)

theorem futGet_futSet_ne (st : ClientState) (fid fid' : Nat) (f : FutState)
    (h : fid' ≠ fid) : futGet (futSet st fid f) fid' = futGet st fid' := by
  unfold futGet futSet
  exact List.get?_set_ne f _ (fun hh => h hh.symm)

theorem failIds_get_stable (e : PyErr) (ids : List Nat) (fs : List FutState) (fid : Nat)
    (h : fs.get? fid ≠ some .pending) : (failIds e fs ids).get? fid = fs.get? fid := by
  induction ids generalizing fs with
  | nil => simp [failIds]
  | cons i rest ih =>
      unfold failIds
      cases hi : fs.get? i with
      | none => exact ih fs h
      | some x =>
          cases x with
          | pending =>
              have hne : fid ≠ i := by
                intro hh; rw [hh] at h; exact h hi
              have hset : (fs.set i (.failed e)).get? fid = fs.get? fid :=
                List.get?_set_ne _ _ (fun hh => hne hh.symm)
              rw [ih (fs.set i (.failed e)) (by rw [hset]; exact h), hset]
          | value v => exact ih fs h
          | failed e' => exact ih fs h
          | cancelled => exact ih fs h

theorem failIds_get_mem (e : PyErr) (ids : List Nat) (fs : List FutState) (fid : Nat)
    (hmem : fid ∈ ids) (h : fs.get? fid = some .pending) :
    (failIds e fs ids).get? fid = some (.failed e) := by
  induction ids generalizing fs with
  | nil => cases hmem
  | cons i rest ih =>
      unfold failIds
      by_cases heq : fid = i
      · subst heq
        rw [h]
        have hlen : fid < fs.length := by
          by_contra hc
          rw [List.get?_eq_none.2 (Nat.le_of_not_lt hc)] at h
          cases h
        have hset : (fs.set fid (.failed e)).get? fid = some (.failed e) :=
          List.get?_set_eq_of_lt _ hlen
        rw [failIds_get_stable e rest _ fid (by rw [hset]; intro hc; cases hc)]
        exact hset
      · have hmem' : fid ∈ rest := by
          rcases List.mem_cons.1 hmem with h1 | h1
          · exact absurd h1 heq
          · exact h1
        cases hi : fs.get? i with
        | none => exact ih fs hmem' h
        | some x =>
            cases x with
            | pending =>
                have hset : (fs.set i (.failed e)).get? fid = fs.get? fid :=
                  List.get?_set_ne _ _ (fun hh => heq hh.symm)
                exact ih _ hmem' (by rw [hset]; exact h)
            | value v => exact ih fs hmem' h
            | failed e' => exact ih fs hmem' h
            | cancelled => exact ih fs hmem' h

theorem alookup_mem {α : Type} (m : List (String × α)) (k : String) (v : α)
    (h : alookup m k = some v) : (k, v) ∈ m := by
  induction m with
  | nil => cases h
  | cons p rest ih =>
      obtain ⟨k', v'⟩ := p
      by_cases hk : k' = k
      · subst hk
        simp only [alookup, if_pos rfl] at h
        cases h
        exact List.mem_cons_self _ _
      · simp only [alookup, if_neg hk] at h
        exact List.mem_cons_of_mem _ (ih h)

theorem failIds_get_not_mem (e : PyErr) (ids : List Nat) (fs : List FutState) (fid : Nat)
    (hmem : fid ∉ ids) : (failIds e fs ids).get? fid = fs.get? fid := by
  induction ids generalizing fs with
  | nil => simp [failIds]
  | cons i rest ih =>
      have hne : fid ≠ i := fun hh => hmem (hh ▸ List.mem_cons_self i rest)
      have hrest : fid ∉ rest := fun hh => hmem (List.mem_cons_of_mem _ hh)
      unfold failIds
      cases hi : fs.get? i with
      | none => exact ih fs hrest
      | some x =>
          cases x with
          | pending =>
              rw [ih (fs.set i (.failed e)) hrest]
              exact List.get?_set_ne _ _ (fun hh => hne hh.symm)
          | value v => exact ih fs hrest
          | failed e' => exact ih fs hrest
          | cancelled => exact ih fs hrest

theorem strTruthy_some {o : Option String} {r : String} (h : strTruthy o = some r) :
    o = some r := by
  cases o with
  | none => cases h
  | some s =>
      by_cases hs : s = ""
      · simp [strTruthy, hs] at h
      · simp only [strTruthy, if_neg hs] at h
        cases h
        rfl

theorem dispatch_eq_session_created (st : ClientState) (obj : Obj)
    (h : alookup obj "type" = some (.jstr "session_created")) :
    dispatch st obj = (dispatchSessionCreated st (envData obj) (envRid obj), none, none) := by
  have ht : envTypeName obj = "session_created" := by
    unfold envTypeName
    rw [h]
  unfold dispatch
  rw [ht]
  rfl

theorem dispatch_eq_history_snapshot (st : ClientState) (obj : Obj)
    (h : alookup obj "type" = some (.jstr "history_snapshot")) :
    dispatch st obj = dispatchHistorySnapshot st (envData obj) := by
  have ht : envTypeName obj = "history_snapshot" := by
    unfold envTypeName
    rw [h]
  unfold dispatch
  rw [ht]
  rfl

theorem dispatch_eq_session_error (st : ClientState) (obj : Obj)
    (h : alookup obj "type" = some (.jstr "session_error")) :
    dispatch st obj = (dispatchSessionError st (envData obj) (envRid obj), none, none) := by
  have ht : envTypeName obj = "session_error" := by
    unfold envTypeName
    rw [h]
  unfold dispatch
  rw [ht]
  rfl

theorem dispatch_eq_batch_ack (st : ClientState) (obj : Obj)
    (h : alookup obj "type" = some (.jstr "batch_ack")) :
    dispatch st obj = (dispatchBatchAck st (envData obj) (envRid obj), none, none) := by
  have ht : envTypeName obj = "batch_ack" := by
    unfold envTypeName
    rw [h]
  unfold dispatch
  rw [ht]
  rfl

theorem dispatch_eq_tick (st : ClientState) (obj : Obj)
    (h : alookup obj "type" = some (.jstr "tick")) :
    dispatch st obj = dispatchTick st (envData obj) := by
  have ht : envTypeName obj = "tick" := by
    unfold envTypeName
    rw [h]
  unfold dispatch
  rw [ht]
  rfl

theorem dispatch_eq_simulation_end (st : ClientState) (obj : Obj)
    (h : alookup obj "type" = some (.jstr "simulation_end")) :
    dispatch st obj =
      ((dispatchSimulationEnd st (envData obj)).1,
       (dispatchSimulationEnd st (envData obj)).2, none) := by
  have ht : envTypeName obj = "simulation_end" := by
    unfold envTypeName
    rw [h]
  unfold dispatch
  rw [ht]
  rfl

theorem dispatchSessionCreated_resolves (st1 : ClientState) (r : String) (fid : Nat)
    (data : Obj) (hr : r ≠ "")
    (hpend : alookup st1.pending_by_request r = some fid)
    (hfut : futGet st1 fid = some .pending) :
    (∀ s, alookup data "session_id" = some (.jstr s) →
      futGet (dispatchSessionCreated st1 data (some r)) fid = some (.value data)) ∧
    ((∀ s, alookup data "session_id" ≠ some (.jstr s)) →
      futGet (dispatchSessionCreated st1 data (some r)) fid =
        some (.failed (.sessionProtocolError
          "Invalid session_created payload: missing session_id"))) := by
  have hdone :
      futDone { st1 with pending_by_request := aerase st1.pending_by_request r } fid = false := by
    simp [futDone, futGet] at hfut ⊢
    rw [hfut]
  constructor
  · intro s hs
    unfold dispatchSessionCreated
    simp only [strTruthy, if_neg hr, popPending, hpend, hdone, Bool.false_eq_true, if_false]
    rw [hs]
    have hset :
        futGet (futSet { st1 with pending_by_request := aerase st1.pending_by_request r }
          fid (.value data)) fid = some (.value data) :=
      futGet_futSet_self _ fid _ .pending (by simpa [futGet] using hfut)
    cases hm : alookup (futSet { st1 with pending_by_request := aerase st1.pending_by_request r }
        fid (.value data)).req_meta_by_rid r with
    | none => simpa [hm] using hset
    | some meta => simpa [hm, futGet, futSet] using hset
  · intro hns
    unfold dispatchSessionCreated
    simp only [strTruthy, if_neg hr, popPending, hpend, hdone, Bool.false_eq_true, if_false]
    cases hv : alookup data "session_id" with
    | none =>
        exact futGet_futSet_self _ fid _ .pending (by simpa [futGet] using hfut)
    | some v =>
        cases v with
        | jstr s => exact absurd hv (hns s)
        | jnull => exact futGet_futSet_self _ fid _ .pending (by simpa [futGet] using hfut)
        | jbool b => exact futGet_futSet_self _ fid _ .pending (by simpa [futGet] using hfut)
        | jnum q => exact futGet_futSet_self _ fid _ .pending (by simpa [futGet] using hfut)
        | jdt t => exact futGet_futSet_self _ fid _ .pending (by simpa [futGet] using hfut)
        | jarr xs => exact futGet_futSet_self _ fid _ .pending (by simpa [futGet] using hfut)
        | jobj fs => exact futGet_futSet_self _ fid _ .pending (by simpa [futGet] using hfut)

theorem dispatchSessionCreated_other (st1 : ClientState) (data : Obj) (rid0 : Option String)
    (fid : Nat)
    (h : ∀ r fid2, strTruthy rid0 = some r →
      alookup st1.pending_by_request r = some fid2 → fid2 ≠ fid) :
    futGet (dispatchSessionCreated st1 data rid0) fid = futGet st1 fid := by
  unfold dispatchSessionCreated
  cases ht : strTruthy rid0 with
  | none => rfl
  | some r =>
      simp only [popPending]
      cases hp : alookup st1.pending_by_request r with
      | none => rfl
      | some fid2 =>
          have hne : fid2 ≠ fid := h r fid2 ht hp
          by_cases hd :
              futDone { st1 with pending_by_request := aerase st1.pending_by_request r } fid2
          · simp only [hd, if_true]
            rfl
          · simp only [hd, Bool.false_eq_true, if_false]
            cases hv : alookup data "session_id" with
            | none =>
                simp only [futGet, futSet]
                exact List.get?_set_ne _ _ hne
            | some v =>
                cases v with
                | jstr s =>
                    cases hm : alookup (futSet
                        { st1 with pending_by_request := aerase st1.pending_by_request r }
                        fid2 (.value data)).req_meta_by_rid r with
                    | none =>
                        simp only [futGet, futSet]
                        exact List.get?_set_ne _ _ hne
                    | some meta =>
                        simp only [futGet, futSet]
                        exact List.get?_set_ne _ _ hne
                | jnull =>
                    simp only [futGet, futSet]
                    exact List.get?_set_ne _ _ hne
                | jbool b =>
                    simp only [futGet, futSet]
                    exact List.get?_set_ne _ _ hne
                | jnum q =>
                    simp only [futGet, futSet]
                    exact List.get?_set_ne _ _ hne
                | jdt t =>
                    simp only [futGet, futSet]
                    exact List.get?_set_ne _ _ hne
                | jarr xs =>
                    simp only [futGet, futSet]
                    exact List.get?_set_ne _ _ hne
                | jobj fs =>
                    simp only [futGet, futSet]
                    exact List.get?_set_ne _ _ hne

/-! ## Claim theorems -/

/-- C10: a tick envelope naming a session with no store yet (no warmup
ingested) is still pushed to that session's tick fan-out queue, while the
store map is untouched and `on_tick` is not invoked — queue subscribers can
observe ticks the strategy never received. -/
theorem tick_prewarm_queued_not_dispatched
    (st : ClientState) (obj : Obj) (sid : String)
    (htype : alookup obj "type" = some (.jstr "tick"))
    (hsid : dataStr (envData obj) "session_id" = some sid)
    (hne : sid ≠ "")
    (hstore : alookup st.stores sid = none) :
    dispatch st obj =
      ({ st with tick_queues := qpush st.tick_queues sid (envData obj) }, none, none) ∧
    alookup (qpush st.tick_queues sid (envData obj)) sid =
      some (((alookup st.tick_queues sid).getD []) ++ [envData obj]) := by
  constructor
  · rw [dispatch_eq_tick st obj htype]
    unfold dispatchTick
    rw [hsid]
    simp only [strTruthy, if_neg hne]
    rw [hstore]
  · exact alookup_aset_self _ _ _

/-- C2: for every `start_simulation` call, the returned string equals exactly
the `session_id` field of the `session_created` envelope whose `request_id`
matches the request that was sent (part a); if that envelope's
`data.session_id` is missing or not a string, `start_simulation` raises a
protocol error instead of returning a value (part b); and a `session_created`
envelope whose `request_id` does not match leaves the call's future pending
(part c). -/
theorem start_simulation_correlation
    (st : ClientState) (rid : String) (reqData : Obj) (obj : Obj)
    (hr : rid ≠ "")
    (htype : alookup obj "type" = some (.jstr "session_created"))
    (hrid : alookup obj "request_id" = some (.jstr rid))
    (hwf : ∀ p ∈ st.pending_by_request, p.2 < st.futures.length) :
    (∀ s, alookup (envData obj) "session_id" = some (.jstr s) →
      awaitFuture (dispatch (start_simulation_send st rid reqData).1 obj).1
          (start_simulation_send st rid reqData).2 = some (.ok (envData obj)) ∧
      start_simulation_resume (dispatch (start_simulation_send st rid reqData).1 obj).1
          (envData obj) =
        .ok (ensureSession (dispatch (start_simulation_send st rid reqData).1 obj).1 s, s)) ∧
    ((∀ s, alookup (envData obj) "session_id" ≠ some (.jstr s)) →
      awaitFuture (dispatch (start_simulation_send st rid reqData).1 obj).1
          (start_simulation_send st rid reqData).2 =
        some (.error (.sessionProtocolError
          "Invalid session_created payload: missing session_id"))) ∧
    (∀ obj2, alookup obj2 "type" = some (.jstr "session_created") →
      envRid obj2 ≠ some rid →
      futGet (dispatch (start_simulation_send st rid reqData).1 obj2).1
          (start_simulation_send st rid reqData).2 = some .pending) := by
  have hfid : (start_simulation_send st rid reqData).2 = st.futures.length := rfl
  have hfutS : (start_simulation_send st rid reqData).1.futures
      = st.futures ++ [.pending] := rfl
  have hpbrS : (start_simulation_send st rid reqData).1.pending_by_request
      = aset st.pending_by_request rid st.futures.length := rfl
  have hpend : alookup (start_simulation_send st rid reqData).1.pending_by_request rid
      = some (start_simulation_send st rid reqData).2 := by
    rw [hpbrS, hfid]
    exact alookup_aset_self _ _ _
  have hfut : futGet (start_simulation_send st rid reqData).1
      (start_simulation_send st rid reqData).2 = some .pending := by
    unfold futGet
    rw [hfutS, hfid]
    simp [List.get?_append_right]
  have henvr : envRid obj = some rid := by
    unfold envRid
    rw [hrid]
  have hD : (dispatch (start_simulation_send st rid reqData).1 obj).1
      = dispatchSessionCreated (start_simulation_send st rid reqData).1
          (envData obj) (some rid) := by
    rw [dispatch_eq_session_created _ obj htype, henvr]
  have hres := dispatchSessionCreated_resolves (start_simulation_send st rid reqData).1 rid
      (start_simulation_send st rid reqData).2 (envData obj) hr hpend hfut
  refine ⟨?_, ?_, ?_⟩
  · intro s hs
    constructor
    · unfold awaitFuture
      rw [hD, hres.1 s hs]
    · unfold start_simulation_resume
      rw [hs]
  · intro hns
    unfold awaitFuture
    rw [hD, hres.2 hns]
  · intro obj2 h2t h2r
    have hh : ∀ r fid2, strTruthy (envRid obj2) = some r →
        alookup (start_simulation_send st rid reqData).1.pending_by_request r = some fid2 →
        fid2 ≠ (start_simulation_send st rid reqData).2 := by
      intro r fid2 htr hpr
      have hor : envRid obj2 = some r := strTruthy_some htr
      have hrne : r ≠ rid := by
        intro hcontra
        rw [hcontra] at hor
        exact h2r hor
      rw [hpbrS, alookup_aset_ne _ _ _ _ hrne] at hpr
      have hlt := hwf _ (alookup_mem _ _ _ hpr)
      rw [hfid]
      exact Nat.ne_of_lt hlt
    have hD2 : (dispatch (start_simulation_send st rid reqData).1 obj2).1
        = dispatchSessionCreated (start_simulation_send st rid reqData).1
            (envData obj2) (envRid obj2) := by
      rw [dispatch_eq_session_created _ obj2 h2t]
    rw [hD2, dispatchSessionCreated_other _ _ _ _ hh]
    exact hfut

/-- Witness for C2: a concrete matching `session_created` envelope carrying
`session_id` `"sess-1"` resolves the call started with request id `"r1"`. -/
theorem start_simulation_correlation_witness :
    (("r1" : String) ≠ "" ∧
     alookup [("type", JVal.jstr "session_created"), ("request_id", JVal.jstr "r1"),
              ("data", JVal.jobj [("session_id", JVal.jstr "sess-1")])] "type" =
       some (.jstr "session_created") ∧
     alookup [("type", JVal.jstr "session_created"), ("request_id", JVal.jstr "r1"),
              ("data", JVal.jobj [("session_id", JVal.jstr "sess-1")])] "request_id" =
       some (.jstr "r1") ∧
     (∀ p ∈ initialState.pending_by_request, p.2 < initialState.futures.length)) ∧
    ((∀ s, alookup (envData [("type", JVal.jstr "session_created"),
              ("request_id", JVal.jstr "r1"),
              ("data", JVal.jobj [("session_id", JVal.jstr "sess-1")])]) "session_id" =
          some (.jstr s) →
      awaitFuture (dispatch (start_simulation_send initialState "r1" []).1
            [("type", JVal.jstr "session_created"), ("request_id", JVal.jstr "r1"),
             ("data", JVal.jobj [("session_id", JVal.jstr "sess-1")])]).1
          (start_simulation_send initialState "r1" []).2 =
        some (.ok (envData [("type", JVal.jstr "session_created"),
              ("request_id", JVal.jstr "r1"),
              ("data", JVal.jobj [("session_id", JVal.jstr "sess-1")])])) ∧
      start_simulation_resume (dispatch (start_simulation_send initialState "r1" []).1
            [("type", JVal.jstr "session_created"), ("request_id", JVal.jstr "r1"),
             ("data", JVal.jobj [("session_id", JVal.jstr "sess-1")])]).1
          (envData [("type", JVal.jstr "session_created"),
              ("request_id", JVal.jstr "r1"),
              ("data", JVal.jobj [("session_id", JVal.jstr "sess-1")])]) =
        .ok (ensureSession (dispatch (start_simulation_send initialState "r1" []).1
            [("type", JVal.jstr "session_created"), ("request_id", JVal.jstr "r1"),
             ("data", JVal.jobj [("session_id", JVal.jstr "sess-1")])]).1 s, s)) ∧
     ((∀ s, alookup (envData [("type", JVal.jstr "session_created"),
              ("request_id", JVal.jstr "r1"),
              ("data", JVal.jobj [("session_id", JVal.jstr "sess-1")])]) "session_id" ≠
          some (.jstr s)) →
      awaitFuture (dispatch (start_simulation_send initialState "r1" []).1
            [("type", JVal.jstr "session_created"), ("request_id", JVal.jstr "r1"),
             ("data", JVal.jobj [("session_id", JVal.jstr "sess-1")])]).1
          (start_simulation_send initialState "r1" []).2 =
        some (.error (.sessionProtocolError
          "Invalid session_created payload: missing session_id"))) ∧
     (∀ obj2, alookup obj2 "type" = some (.jstr "session_created") →
      envRid obj2 ≠ some "r1" →
      futGet (dispatch (start_simulation_send initialState "r1" []).1 obj2).1
          (start_simulation_send initialState "r1" []).2 = some .pending)) :=
  ⟨⟨by decide, rfl, rfl, by simp [initialState]⟩,
   start_simulation_correlation initialState "r1" []
     [("type", JVal.jstr "session_created"), ("request_id", JVal.jstr "r1"),
      ("data", JVal.jobj [("session_id", JVal.jstr "sess-1")])]
     (by decide) rfl rfl (by simp [initialState])⟩

/-- Witness for C10 at a concrete pre-warm state. -/
theorem tick_prewarm_queued_not_dispatched_witness :
    alookup [("type", JVal.jstr "tick"),
             ("data", JVal.jobj [("session_id", JVal.jstr "s1")])] "type" =
        some (.jstr "tick") ∧
    dataStr (envData [("type", JVal.jstr "tick"),
             ("data", JVal.jobj [("session_id", JVal.jstr "s1")])]) "session_id" =
        some "s1" ∧
    ("s1" : String) ≠ "" ∧
    alookup initialState.stores "s1" = none ∧
    (dispatch initialState
        [("type", JVal.jstr "tick"),
         ("data", JVal.jobj [("session_id", JVal.jstr "s1")])] =
      ({ initialState with
         tick_queues := qpush initialState.tick_queues "s1"
           (envData [("type", JVal.jstr "tick"),
                     ("data", JVal.jobj [("session_id", JVal.jstr "s1")])]) }, none, none) ∧
     alookup (qpush initialState.tick_queues "s1"
        (envData [("type", JVal.jstr "tick"),
                  ("data", JVal.jobj [("session_id", JVal.jstr "s1")])])) "s1" =
      some (((alookup initialState.tick_queues "s1").getD []) ++
        [envData [("type", JVal.jstr "tick"),
                  ("data", JVal.jobj [("session_id", JVal.jstr "s1")])]])) :=
  ⟨rfl, rfl, by decide, rfl,
   tick_prewarm_queued_not_dispatched initialState
     [("type", JVal.jstr "tick"), ("data", JVal.jobj [("session_id", JVal.jstr "s1")])]
     "s1" rfl rfl (by decide) rfl⟩

theorem futDone_false {st : ClientState} {fid : Nat} (h : futDone st fid = false) :
    futGet st fid = some .pending := by
  unfold futDone at h
  cases hg : futGet st fid with
  | none => rw [hg] at h; cases h
  | some x =>
      cases x with
      | pending => rfl
      | value v => rw [hg] at h; cases h
      | failed e => rw [hg] at h; cases h
      | cancelled => rw [hg] at h; cases h

theorem sessionErrorHistPhase_shape (st : ClientState) (d : Obj) :
    ∃ fs, sessionErrorHistPhase st d = { st with futures := fs } := by
  unfold sessionErrorHistPhase
  split
  · split
    · split
      · exact ⟨st.futures, rfl⟩
      · exact ⟨_, rfl⟩
    · exact ⟨st.futures, rfl⟩
  · exact ⟨st.futures, rfl⟩

theorem sessionErrorHistPhase_rejects (st : ClientState) (d : Obj) (s : String) (fid : Nat)
    (hs : strTruthy (dataStr d "session_id") = some s)
    (hw : alookup st.hist_waiter s = some (some fid))
    (hp : futGet st fid = some .pending) :
    futGet (sessionErrorHistPhase st d) fid = some (.failed (sessionErrorOf d)) := by
  have hd : futDone st fid = false := by
    unfold futDone
    rw [hp]
  unfold sessionErrorHistPhase
  split
  next s2 hs2 =>
    rw [hs] at hs2
    cases hs2
    split
    next fid2 hw2 =>
      rw [hw] at hw2
      cases hw2
      rw [hd]
      simp only [Bool.false_eq_true, if_false]
      exact futGet_futSet_self st fid _ .pending hp
    next hww => exact absurd hw (hww fid)
  next hs2 => rw [hs] at hs2; cases hs2

theorem sessionErrorHistPhase_other (st : ClientState) (d : Obj) (fid : Nat)
    (h : ∀ s, strTruthy (dataStr d "session_id") = some s →
      alookup st.hist_waiter s ≠ some (some fid)) :
    futGet (sessionErrorHistPhase st d) fid = futGet st fid := by
  unfold sessionErrorHistPhase
  split
  next s hs =>
    split
    next fid2 hw =>
      have hne : fid2 ≠ fid := fun hh => h s hs (hh ▸ hw)
      split
      next => rfl
      next => exact futGet_futSet_ne st fid2 fid _ (fun hh => hne hh.symm)
    next => rfl
  next => rfl

theorem sessionErrorHistPhase_cases (st : ClientState) (d : Obj) (fid : Nat) :
    futGet (sessionErrorHistPhase st d) fid = futGet st fid ∨
    futGet (sessionErrorHistPhase st d) fid = some (.failed (sessionErrorOf d)) := by
  unfold sessionErrorHistPhase
  split
  next s hs =>
    split
    next fid2 hw =>
      split
      next => exact Or.inl rfl
      next hd =>
        by_cases he : fid = fid2
        · subst he
          exact Or.inr
            (futGet_futSet_self st fid _ .pending (futDone_false (Bool.eq_false_iff.2 hd)))
        · exact Or.inl (futGet_futSet_ne st fid2 fid _ he)
    next => exact Or.inl rfl
  next => exact Or.inl rfl

theorem sessionErrorRidPhase_shape (st1 : ClientState) (d : Obj) (rid : Option String) :
    ∃ fs pbr, sessionErrorRidPhase st1 d rid =
      { st1 with futures := fs, pending_by_request := pbr } := by
  unfold sessionErrorRidPhase
  cases strTruthy rid with
  | none => exact ⟨st1.futures, st1.pending_by_request, rfl⟩
  | some r =>
      simp only [popPending]
      cases alookup st1.pending_by_request r with
      | none => exact ⟨st1.futures, aerase st1.pending_by_request r, rfl⟩
      | some fid =>
          by_cases hd :
              futDone { st1 with pending_by_request := aerase st1.pending_by_request r } fid
          · simp only [hd, if_true]
            exact ⟨st1.futures, aerase st1.pending_by_request r, rfl⟩
          · simp only [hd, Bool.false_eq_true, if_false]
            exact ⟨_, aerase st1.pending_by_request r, rfl⟩

theorem sessionErrorRidPhase_stable (st1 : ClientState) (d : Obj) (rid : Option String)
    (fid : Nat) (h : futGet st1 fid ≠ some .pending) :
    futGet (sessionErrorRidPhase st1 d rid) fid = futGet st1 fid := by
  unfold sessionErrorRidPhase
  cases strTruthy rid with
  | none => rfl
  | some r =>
      simp only [popPending]
      cases alookup st1.pending_by_request r with
      | none => rfl
      | some fid2 =>
          by_cases hd :
              futDone { st1 with pending_by_request := aerase st1.pending_by_request r } fid2
          · simp only [hd, if_true]
            rfl
          · simp only [hd, Bool.false_eq_true, if_false]
            have hp2 : futGet st1 fid2 = some .pending :=
              futDone_false (Bool.eq_false_iff.2 hd)
            have hne : fid ≠ fid2 := fun hh => h (hh ▸ hp2)
            exact futGet_futSet_ne _ fid2 fid _ hne

theorem sessionErrorRidPhase_rejects (st1 : ClientState) (d : Obj) (rid : Option String)
    (r : String) (fid : Nat)
    (hr : strTruthy rid = some r)
    (hpr : alookup st1.pending_by_request r = some fid)
    (hpf : futGet st1 fid = some .pending) :
    futGet (sessionErrorRidPhase st1 d rid) fid = some (.failed (sessionErrorOf d)) := by
  unfold sessionErrorRidPhase
  rw [hr]
  simp only [popPending, hpr]
  have hd : futDone { st1 with pending_by_request := aerase st1.pending_by_request r } fid
      = false := by
    unfold futDone futGet
    unfold futGet at hpf
    rw [hpf]
  rw [hd]
  simp only [Bool.false_eq_true, if_false]
  exact futGet_futSet_self _ fid _ .pending hpf

theorem sessionErrorRidPhase_other (st1 : ClientState) (d : Obj) (rid : Option String)
    (fid : Nat)
    (h : ∀ r, strTruthy rid = some r → alookup st1.pending_by_request r ≠ some fid) :
    futGet (sessionErrorRidPhase st1 d rid) fid = futGet st1 fid := by
  unfold sessionErrorRidPhase
  cases ht : strTruthy rid with
  | none => rfl
  | some r =>
      simp only [popPending]
      cases hp : alookup st1.pending_by_request r with
      | none => rfl
      | some fid2 =>
          have hne : fid2 ≠ fid := fun hh => h r ht (hh ▸ hp)
          by_cases hd :
              futDone { st1 with pending_by_request := aerase st1.pending_by_request r } fid2
          · simp only [hd, if_true]
            rfl
          · simp only [hd, Bool.false_eq_true, if_false]
            exact futGet_futSet_ne _ fid2 fid _ (fun hh => hne hh.symm)

/-- C7 (amended): a `session_error` envelope rejects the matching pending
request (by `request_id`) and the matching session's unresolved *history*
waiter with a session error carrying the server's error code and message,
and touches no other future; `ended` waiters are never rejected by this
branch, and the waiter maps and stores are unchanged. -/
theorem session_error_targeting (st : ClientState) (obj : Obj)
    (htype : alookup obj "type" = some (.jstr "session_error")) :
    (∀ r fid, envRid obj = some r → r ≠ "" →
      alookup st.pending_by_request r = some fid → futGet st fid = some .pending →
      futGet (dispatch st obj).1 fid = some (.failed (sessionErrorOf (envData obj)))) ∧
    (∀ s fid, dataStr (envData obj) "session_id" = some s → s ≠ "" →
      alookup st.hist_waiter s = some (some fid) → futGet st fid = some .pending →
      futGet (dispatch st obj).1 fid = some (.failed (sessionErrorOf (envData obj)))) ∧
    (∀ fid,
      (∀ r, strTruthy (envRid obj) = some r → alookup st.pending_by_request r ≠ some fid) →
      (∀ s, strTruthy (dataStr (envData obj) "session_id") = some s →
        alookup st.hist_waiter s ≠ some (some fid)) →
      futGet (dispatch st obj).1 fid = futGet st fid) ∧
    ((dispatch st obj).1.end_waiter = st.end_waiter ∧
     (dispatch st obj).1.hist_waiter = st.hist_waiter ∧
     (dispatch st obj).1.stores = st.stores) := by
  have hD : (dispatch st obj).1
      = sessionErrorRidPhase (sessionErrorHistPhase st (envData obj)) (envData obj)
          (envRid obj) := by
    rw [dispatch_eq_session_error st obj htype]
    rfl
  obtain ⟨fs1, hfs1⟩ := sessionErrorHistPhase_shape st (envData obj)
  refine ⟨?_, ?_, ?_, ?_⟩
  · intro r fid her hrne hpr hpf
    rw [hD]
    have hstr : strTruthy (envRid obj) = some r := by
      rw [her]
      simp [strTruthy, hrne]
    have hpr1 : alookup (sessionErrorHistPhase st (envData obj)).pending_by_request r
        = some fid := by
      rw [hfs1]
      exact hpr
    rcases sessionErrorHistPhase_cases st (envData obj) fid with hc | hc
    · exact sessionErrorRidPhase_rejects _ _ _ r fid hstr hpr1 (by rw [hc]; exact hpf)
    · rw [sessionErrorRidPhase_stable _ _ _ fid (by rw [hc]; intro hcon; cases hcon)]
      exact hc
  · intro s fid hsid hsne hw hpf
    rw [hD]
    have hstr : strTruthy (dataStr (envData obj) "session_id") = some s := by
      rw [hsid]
      simp [strTruthy, hsne]
    have h1 := sessionErrorHistPhase_rejects st (envData obj) s fid hstr hw hpf
    rw [sessionErrorRidPhase_stable _ _ _ fid (by rw [h1]; intro hcon; cases hcon)]
    exact h1
  · intro fid hreq hhist
    rw [hD]
    have h1 := sessionErrorHistPhase_other st (envData obj) fid hhist
    have hreq1 : ∀ r, strTruthy (envRid obj) = some r →
        alookup (sessionErrorHistPhase st (envData obj)).pending_by_request r ≠ some fid := by
      intro r htr
      rw [hfs1]
      exact hreq r htr
    rw [sessionErrorRidPhase_other _ _ _ fid hreq1, h1]
  · obtain ⟨fs2, pbr2, hfs2⟩ := sessionErrorRidPhase_shape
      (sessionErrorHistPhase st (envData obj)) (envData obj) (envRid obj)
    refine ⟨?_, ?_, ?_⟩ <;> rw [hD, hfs2, hfs1]

/-- Counterexample to C7 as stated: session `"s1"` has an unresolved *end*
milestone waiter (future 0); a `session_error` whose `data.session_id`
matches `"s1"` leaves that waiter pending instead of rejecting it. -/
theorem session_error_end_waiter_not_rejected :
    futGet (dispatch exEndWaiterState
      [("type", JVal.jstr "session_error"),
       ("data", JVal.jobj [("session_id", JVal.jstr "s1"),
                           ("error_code", JVal.jstr "E1")])]).1 0 = some .pending ∧
    (dispatch exEndWaiterState
      [("type", JVal.jstr "session_error"),
       ("data", JVal.jobj [("session_id", JVal.jstr "s1"),
                           ("error_code", JVal.jstr "E1")])]).1.end_waiter
      = [("s1", some 0)] :=
  ⟨rfl, rfl⟩

/-- Witness for C7's amended theorem at a concrete state: request `"r1"`
pending as future 0, history waiter of `"s1"` as future 1. -/
theorem session_error_targeting_witness :
    alookup exErrEnv "type" = some (.jstr "session_error") ∧
    ((∀ r fid, envRid exErrEnv = some r → r ≠ "" →
      alookup exErrState.pending_by_request r = some fid →
      futGet exErrState fid = some .pending →
      futGet (dispatch exErrState exErrEnv).1 fid =
        some (.failed (sessionErrorOf (envData exErrEnv)))) ∧
     (∀ s fid, dataStr (envData exErrEnv) "session_id" = some s → s ≠ "" →
      alookup exErrState.hist_waiter s = some (some fid) →
      futGet exErrState fid = some .pending →
      futGet (dispatch exErrState exErrEnv).1 fid =
        some (.failed (sessionErrorOf (envData exErrEnv)))) ∧
     (∀ fid,
      (∀ r, strTruthy (envRid exErrEnv) = some r →
        alookup exErrState.pending_by_request r ≠ some fid) →
      (∀ s, strTruthy (dataStr (envData exErrEnv) "session_id") = some s →
        alookup exErrState.hist_waiter s ≠ some (some fid)) →
      futGet (dispatch exErrState exErrEnv).1 fid = futGet exErrState fid) ∧
     ((dispatch exErrState exErrEnv).1.end_waiter = exErrState.end_waiter ∧
      (dispatch exErrState exErrEnv).1.hist_waiter = exErrState.hist_waiter ∧
      (dispatch exErrState exErrEnv).1.stores = exErrState.stores)) :=
  ⟨rfl, session_error_targeting exErrState exErrEnv rfl⟩

theorem freshEndWaiter_spec (st : ClientState) (sid : String) :
    futGet (freshEndWaiter st sid).1 (freshEndWaiter st sid).2 = some .pending ∧
    alookup (freshEndWaiter st sid).1.end_waiter sid
      = some (some (freshEndWaiter st sid).2) := by
  unfold freshEndWaiter newFuture
  constructor
  · show (st.futures ++ [FutState.pending]).get? st.futures.length = some .pending
    simp [List.get?_append_right]
  · exact alookup_aset_self _ _ _

theorem wait_for_simulation_end_arm_spec (st : ClientState) (sid : String) :
    futGet (wait_for_simulation_end_arm st sid).1 (wait_for_simulation_end_arm st sid).2
      = some .pending ∧
    alookup (wait_for_simulation_end_arm st sid).1.end_waiter sid
      = some (some (wait_for_simulation_end_arm st sid).2) := by
  cases ha : alookup (ensureSession st sid).end_waiter sid with
  | none =>
      have harm : wait_for_simulation_end_arm st sid
          = freshEndWaiter (ensureSession st sid) sid := by
        unfold wait_for_simulation_end_arm
        simp only [ha, Option.getD_none]
      rw [harm]
      exact freshEndWaiter_spec _ _
  | some o =>
      cases o with
      | none =>
          have harm : wait_for_simulation_end_arm st sid
              = freshEndWaiter (ensureSession st sid) sid := by
            unfold wait_for_simulation_end_arm
            simp only [ha, Option.getD_some]
          rw [harm]
          exact freshEndWaiter_spec _ _
      | some fid =>
          by_cases hd : futDone (ensureSession st sid) fid
          · have harm : wait_for_simulation_end_arm st sid
                = freshEndWaiter (ensureSession st sid) sid := by
              unfold wait_for_simulation_end_arm
              simp only [ha, Option.getD_some, hd, if_true]
            rw [harm]
            exact freshEndWaiter_spec _ _
          · have harm : wait_for_simulation_end_arm st sid = (ensureSession st sid, fid) := by
              unfold wait_for_simulation_end_arm
              simp only [ha, Option.getD_some, hd, Bool.false_eq_true, if_false]
            rw [harm]
            exact ⟨futDone_false (Bool.eq_false_iff.2 hd), ha⟩

theorem simulationEndResolveWaiter_armed (st : ClientState) (sid : String) (data : Obj)
    (fid : Nat)
    (hw : alookup st.end_waiter sid = some (some fid))
    (hp : futGet st fid = some .pending) :
    simulationEndResolveWaiter st sid data = futSet st fid (.value data) := by
  have hd : futDone st fid = false := by
    unfold futDone
    rw [hp]
  unfold simulationEndResolveWaiter
  simp only [hw, Option.getD_some, hd, Bool.false_eq_true, if_false]

theorem simulationEndResolveWaiter_value (st : ClientState) (sid : String) (data : Obj) :
    ∃ fid, alookup (simulationEndResolveWaiter st sid data).end_waiter sid
        = some (some fid) ∧
      futGet (simulationEndResolveWaiter st sid data) fid = some (.value data) := by
  cases ha : alookup st.end_waiter sid with
  | some o =>
      cases o with
      | some fid =>
          by_cases hd : futDone st fid
          · obtain ⟨hf, hsl⟩ := freshEndWaiter_spec st sid
            have hd2 : futDone (freshEndWaiter st sid).1 (freshEndWaiter st sid).2
                = false := by
              unfold futDone
              rw [hf]
            have hres : simulationEndResolveWaiter st sid data
                = futSet (freshEndWaiter st sid).1 (freshEndWaiter st sid).2
                    (.value data) := by
              unfold simulationEndResolveWaiter
              simp only [ha, Option.getD_some, hd, if_true, hd2, Bool.false_eq_true,
                if_false]
            refine ⟨(freshEndWaiter st sid).2, ?_, ?_⟩
            · rw [hres]
              exact hsl
            · rw [hres]
              exact futGet_futSet_self _ _ _ .pending hf
          · have hp : futGet st fid = some .pending :=
              futDone_false (Bool.eq_false_iff.2 hd)
            have hres : simulationEndResolveWaiter st sid data
                = futSet st fid (.value data) :=
              simulationEndResolveWaiter_armed st sid data fid ha hp
            refine ⟨fid, ?_, ?_⟩
            · rw [hres]
              exact ha
            · rw [hres]
              exact futGet_futSet_self st fid _ .pending hp
      | none =>
          obtain ⟨hf, hsl⟩ := freshEndWaiter_spec st sid
          have hd2 : futDone (freshEndWaiter st sid).1 (freshEndWaiter st sid).2
              = false := by
            unfold futDone
            rw [hf]
          have hres : simulationEndResolveWaiter st sid data
              = futSet (freshEndWaiter st sid).1 (freshEndWaiter st sid).2 (.value data) := by
            unfold simulationEndResolveWaiter
            simp only [ha, Option.getD_some, hd2, Bool.false_eq_true, if_false]
          refine ⟨(freshEndWaiter st sid).2, ?_, ?_⟩
          · rw [hres]
            exact hsl
          · rw [hres]
            exact futGet_futSet_self _ _ _ .pending hf
  | none =>
      obtain ⟨hf, hsl⟩ := freshEndWaiter_spec st sid
      have hd2 : futDone (freshEndWaiter st sid).1 (freshEndWaiter st sid).2 = false := by
        unfold futDone
        rw [hf]
      have hres : simulationEndResolveWaiter st sid data
          = futSet (freshEndWaiter st sid).1 (freshEndWaiter st sid).2 (.value data) := by
        unfold simulationEndResolveWaiter
        simp only [ha, Option.getD_none, hd2, Bool.false_eq_true, if_false]
      refine ⟨(freshEndWaiter st sid).2, ?_, ?_⟩
      · rw [hres]
        exact hsl
      · rw [hres]
        exact futGet_futSet_self _ _ _ .pending hf

theorem simulationEndResolveWaiter_shape (st : ClientState) (sid : String) (data : Obj) :
    ∃ fs ew, simulationEndResolveWaiter st sid data
      = { st with futures := fs, end_waiter := ew } := by
  unfold simulationEndResolveWaiter
  dsimp only
  repeat' split
  all_goals exact ⟨_, _, rfl⟩

theorem dispatchSimulationEnd_resolves_armed (st : ClientState) (data : Obj) (sid : String)
    (fid : Nat)
    (hsid : strTruthy (dataStr data "session_id") = some sid)
    (hw : alookup st.end_waiter sid = some (some fid))
    (hp : futGet st fid = some .pending) :
    futGet (dispatchSimulationEnd st data).1 fid = some (.value data) := by
  unfold dispatchSimulationEnd
  split
  next hs2 => rw [hsid] at hs2; cases hs2
  next sid2 hs2 =>
    rw [hsid] at hs2
    cases hs2
    have hres := simulationEndResolveWaiter_armed st sid data fid hw hp
    dsimp only
    split
    next =>
      rw [hres]
      exact futGet_futSet_self st fid _ .pending hp
    next =>
      rw [hres]
      exact futGet_futSet_self st fid _ .pending hp

theorem dispatchSimulationEnd_stores_value (st : ClientState) (data : Obj) (sid : String)
    (hsid : strTruthy (dataStr data "session_id") = some sid) :
    ∃ fid, alookup (dispatchSimulationEnd st data).1.end_waiter sid = some (some fid) ∧
      futGet (dispatchSimulationEnd st data).1 fid = some (.value data) := by
  unfold dispatchSimulationEnd
  split
  next hs2 => rw [hsid] at hs2; cases hs2
  next sid2 hs2 =>
    rw [hsid] at hs2
    cases hs2
    obtain ⟨fid, h1, h2⟩ := simulationEndResolveWaiter_value st sid data
    dsimp only
    split
    next => exact ⟨fid, h1, h2⟩
    next => exact ⟨fid, h1, h2⟩

/-- C6 (amended): a simulation-end waiter armed *before* the event is resolved
with the realized end payload — in particular after a timed-out wait (a
timeout only cancels the previously armed future; re-arming allocates a fresh
future that the next arrival resolves) — and the dispatch of `simulation_end`
always stores the realized value in the session's `ended` slot.  A waiter
armed *after* the event replaces the stored future instead of reading it (see
the counterexample theorem). -/
theorem simulation_end_waiter_delivery
    (st : ClientState) (obj : Obj) (sid : String)
    (htype : alookup obj "type" = some (.jstr "simulation_end"))
    (hsid : dataStr (envData obj) "session_id" = some sid)
    (hne : sid ≠ "") :
    (futGet (dispatch (wait_for_simulation_end_arm st sid).1 obj).1
        (wait_for_simulation_end_arm st sid).2 = some (.value (envData obj))) ∧
    (∀ fid0, futGet (dispatch (wait_for_simulation_end_arm (cancelFuture st fid0) sid).1 obj).1
        (wait_for_simulation_end_arm (cancelFuture st fid0) sid).2
      = some (.value (envData obj))) ∧
    (∃ fid, alookup (dispatch st obj).1.end_waiter sid = some (some fid) ∧
      futGet (dispatch st obj).1 fid = some (.value (envData obj))) := by
  have hstr : strTruthy (dataStr (envData obj) "session_id") = some sid := by
    rw [hsid]
    simp [strTruthy, hne]
  have key : ∀ st', futGet (dispatch (wait_for_simulation_end_arm st' sid).1 obj).1
      (wait_for_simulation_end_arm st' sid).2 = some (.value (envData obj)) := by
    intro st'
    obtain ⟨hp, hsl⟩ := wait_for_simulation_end_arm_spec st' sid
    have hD : (dispatch (wait_for_simulation_end_arm st' sid).1 obj).1
        = (dispatchSimulationEnd (wait_for_simulation_end_arm st' sid).1 (envData obj)).1 := by
      rw [dispatch_eq_simulation_end _ obj htype]
    rw [hD]
    exact dispatchSimulationEnd_resolves_armed _ _ sid _ hstr hsl hp
  refine ⟨key st, fun fid0 => key (cancelFuture st fid0), ?_⟩
  have hD : (dispatch st obj).1 = (dispatchSimulationEnd st (envData obj)).1 := by
    rw [dispatch_eq_simulation_end _ obj htype]
  rw [hD]
  exact dispatchSimulationEnd_stores_value st (envData obj) sid hstr

/-- Counterexample to C6 as stated: the `simulation_end` for `"s1"` arrives
first and its payload is stored (future 0 resolves with the end value), yet a
`wait_for_simulation_end` armed afterwards replaces the resolved future with
a fresh pending one, so the late wait blocks instead of returning the stored
realized value. -/
theorem simulation_end_late_wait_blocks :
    futGet (dispatch initialState exEndEnv).1 0
      = some (.value (envData exEndEnv)) ∧
    awaitFuture (wait_for_simulation_end_arm (dispatch initialState exEndEnv).1 "s1").1
      (wait_for_simulation_end_arm (dispatch initialState exEndEnv).1 "s1").2 = none :=
  ⟨rfl, rfl⟩

/-- Witness for C6's amended theorem on a concrete session and envelope. -/
theorem simulation_end_waiter_delivery_witness :
    alookup exEndEnv "type" = some (.jstr "simulation_end") ∧
    dataStr (envData exEndEnv) "session_id" = some "s1" ∧
    ("s1" : String) ≠ "" ∧
    ((futGet (dispatch (wait_for_simulation_end_arm initialState "s1").1 exEndEnv).1
        (wait_for_simulation_end_arm initialState "s1").2
      = some (.value (envData exEndEnv))) ∧
     (∀ fid0, futGet (dispatch
          (wait_for_simulation_end_arm (cancelFuture initialState fid0) "s1").1 exEndEnv).1
        (wait_for_simulation_end_arm (cancelFuture initialState fid0) "s1").2
      = some (.value (envData exEndEnv))) ∧
     (∃ fid, alookup (dispatch initialState exEndEnv).1.end_waiter "s1" = some (some fid) ∧
      futGet (dispatch initialState exEndEnv).1 fid = some (.value (envData exEndEnv)))) :=
  ⟨rfl, rfl, by decide,
   simulation_end_waiter_delivery initialState exEndEnv "s1" rfl rfl (by decide)⟩

/-- C4 (amended): when an unhandled exception escapes the receive loop,
`_fail_all_pending` rejects every still-open pending-request future and every
still-open per-session *history* waiter with the terminal error and clears
both maps; outstanding *end* waiters are not rejected by it, and `close()`
cancels the receive task and closes the transport without resolving,
rejecting or cancelling any outstanding future. -/
theorem fail_all_pending_and_close_spec (st : ClientState) (e : PyErr) :
    (∀ p ∈ st.pending_by_request, futGet st p.2 = some .pending →
      futGet (fail_all_pending st e) p.2 = some (.failed e)) ∧
    (∀ p ∈ st.hist_waiter, ∀ fid, p.2 = some fid → futGet st fid = some .pending →
      futGet (fail_all_pending st e) fid = some (.failed e)) ∧
    ((fail_all_pending st e).pending_by_request = [] ∧
     (fail_all_pending st e).hist_waiter = [] ∧
     (fail_all_pending st e).end_waiter = []) ∧
    (∀ fid, (∀ p ∈ st.pending_by_request, p.2 ≠ fid) →
      (∀ p ∈ st.hist_waiter, p.2 ≠ some fid) →
      futGet (fail_all_pending st e) fid = futGet st fid) ∧
    ((close st).futures = st.futures ∧
     (close st).pending_by_request = st.pending_by_request ∧
     (close st).hist_waiter = st.hist_waiter ∧
     (close st).end_waiter = st.end_waiter) := by
  have hview : ∀ fid, futGet (fail_all_pending st e) fid
      = (failIds e st.futures
          (st.pending_by_request.map Prod.snd ++ st.hist_waiter.filterMap Prod.snd)).get?
          fid := fun _ => rfl
  refine ⟨?_, ?_, ⟨rfl, rfl, rfl⟩, ?_, ⟨rfl, rfl, rfl, rfl⟩⟩
  · intro p hp hpend
    rw [hview]
    exact failIds_get_mem e _ st.futures p.2
      (List.mem_append_left _ (List.mem_map.2 ⟨p, hp, rfl⟩)) hpend
  · intro p hp fid hfid hpend
    rw [hview]
    exact failIds_get_mem e _ st.futures fid
      (List.mem_append_right _ (List.mem_filterMap.2 ⟨p, hp, hfid⟩)) hpend
  · intro fid hreq hhist
    rw [hview]
    refine failIds_get_not_mem e _ st.futures fid ?_
    intro hmem
    rcases List.mem_append.1 hmem with h1 | h1
    · obtain ⟨p, hp, hpe⟩ := List.mem_map.1 h1
      exact hreq p hp hpe
    · obtain ⟨p, hp, hpe⟩ := List.mem_filterMap.1 h1
      exact hhist p hp hpe

/-- Counterexample to C4 as stated: in a state with a pending request
(future 0) and an unresolved end-milestone waiter (future 1), the receive
loop's terminal `_fail_all_pending` leaves the end waiter pending, and
`close()` leaves even the pending request future untouched — both callers
would hang. -/
theorem close_leaves_waiters_hanging :
    futGet (fail_all_pending exC4State recvLoopFailure) 1 = some .pending ∧
    futGet (close exC4State) 0 = some .pending ∧
    futGet (close exC4State) 1 = some .pending :=
  ⟨rfl, rfl, rfl⟩

/-- Witness for C4's amended theorem at the concrete state `exC4State`. -/
theorem fail_all_pending_and_close_spec_witness :
    (∀ p ∈ exC4State.pending_by_request, futGet exC4State p.2 = some .pending →
      futGet (fail_all_pending exC4State recvLoopFailure) p.2 =
        some (.failed recvLoopFailure)) ∧
    (∀ p ∈ exC4State.hist_waiter, ∀ fid, p.2 = some fid →
      futGet exC4State fid = some .pending →
      futGet (fail_all_pending exC4State recvLoopFailure) fid =
        some (.failed recvLoopFailure)) ∧
    ((fail_all_pending exC4State recvLoopFailure).pending_by_request = [] ∧
     (fail_all_pending exC4State recvLoopFailure).hist_waiter = [] ∧
     (fail_all_pending exC4State recvLoopFailure).end_waiter = []) ∧
    (∀ fid, (∀ p ∈ exC4State.pending_by_request, p.2 ≠ fid) →
      (∀ p ∈ exC4State.hist_waiter, p.2 ≠ some fid) →
      futGet (fail_all_pending exC4State recvLoopFailure) fid = futGet exC4State fid) ∧
    ((close exC4State).futures = exC4State.futures ∧
     (close exC4State).pending_by_request = exC4State.pending_by_request ∧
     (close exC4State).hist_waiter = exC4State.hist_waiter ∧
     (close exC4State).end_waiter = exC4State.end_waiter) :=
  fail_all_pending_and_close_spec exC4State recvLoopFailure

theorem dispatchBatchAck_resolves (st1 : ClientState) (r : String) (fid : Nat) (data : Obj)
    (hr : r ≠ "")
    (hpr : alookup st1.pending_by_request r = some fid)
    (hpf : futGet st1 fid = some .pending) :
    futGet (dispatchBatchAck st1 data (some r)) fid = some (.value data) := by
  unfold dispatchBatchAck
  simp only [strTruthy, if_neg hr, popPending, hpr]
  have hd : futDone { st1 with pending_by_request := aerase st1.pending_by_request r } fid
      = false := by
    unfold futDone futGet
    unfold futGet at hpf
    rw [hpf]
  rw [hd]
  simp only [Bool.false_eq_true, if_false]
  exact futGet_futSet_self _ fid _ .pending hpf

/-- C1 (nowait order submission, modelled from the spec): the nowait form
registers the ack future and sends the `order_batch` envelope, returning the
un-awaited future as a handle immediately (so a strategy calling it from
inside `on_tick` returns without waiting for the ack); a `batch_ack` frame
with the matching `request_id` processed on a later receive-loop iteration
resolves that future, and that iteration does not stop the loop. -/
theorem submit_orders_nowait_resolution
    (st : ClientState) (sessionId : String) (orders : List JVal)
    (batchId execMode rid : String) (obj : Obj)
    (hr : rid ≠ "")
    (htype : alookup obj "type" = some (.jstr "batch_ack"))
    (hrid : alookup obj "request_id" = some (.jstr rid)) :
    futGet (submit_orders_nowait st sessionId orders batchId execMode rid).1
        (submit_orders_nowait st sessionId orders batchId execMode rid).2
      = some .pending ∧
    (submit_orders_nowait st sessionId orders batchId execMode rid).1.sent
      = st.sent ++ [("order_batch", rid,
          [("session_id", .jstr sessionId), ("batch_id", .jstr batchId),
           ("orders", .jarr orders), ("execution_mode", .jstr execMode)])] ∧
    (recvStep (submit_orders_nowait st sessionId orders batchId execMode rid).1
        (.parsed (.jobj obj))).2.2 = false ∧
    futGet (recvStep (submit_orders_nowait st sessionId orders batchId execMode rid).1
        (.parsed (.jobj obj))).1
        (submit_orders_nowait st sessionId orders batchId execMode rid).2
      = some (.value (envData obj)) := by
  have hfut : futGet (submit_orders_nowait st sessionId orders batchId execMode rid).1
      (submit_orders_nowait st sessionId orders batchId execMode rid).2 = some .pending := by
    show (st.futures ++ [FutState.pending]).get? st.futures.length = some .pending
    simp [List.get?_append_right]
  have henvr : envRid obj = some rid := by
    unfold envRid
    rw [hrid]
  have hpend : alookup
      (submit_orders_nowait st sessionId orders batchId execMode rid).1.pending_by_request
      rid = some (submit_orders_nowait st sessionId orders batchId execMode rid).2 :=
    alookup_aset_self _ _ _
  have hda : dispatch (submit_orders_nowait st sessionId orders batchId execMode rid).1 obj
      = (dispatchBatchAck
          (submit_orders_nowait st sessionId orders batchId execMode rid).1
          (envData obj) (some rid), none, none) := by
    rw [dispatch_eq_batch_ack _ obj htype, henvr]
  have hstep : recvStep (submit_orders_nowait st sessionId orders batchId execMode rid).1
      (.parsed (.jobj obj))
      = ((dispatchBatchAck
          (submit_orders_nowait st sessionId orders batchId execMode rid).1
          (envData obj) (some rid)), none, false) := by
    simp only [recvStep]
    rw [hda]
  refine ⟨hfut, rfl, ?_, ?_⟩
  · rw [hstep]
  · rw [hstep]
    exact dispatchBatchAck_resolves _ rid _ (envData obj) hr hpend hfut

/-- Witness for C1 at a concrete order submission and matching ack. -/
theorem submit_orders_nowait_resolution_witness :
    (("r9" : String) ≠ "" ∧
     alookup exAckEnv "type" = some (.jstr "batch_ack") ∧
     alookup exAckEnv "request_id" = some (.jstr "r9")) ∧
    (futGet (submit_orders_nowait initialState "sess-1" [] "b1" "best_effort" "r9").1
        (submit_orders_nowait initialState "sess-1" [] "b1" "best_effort" "r9").2
      = some .pending ∧
    (submit_orders_nowait initialState "sess-1" [] "b1" "best_effort" "r9").1.sent
      = initialState.sent ++ [("order_batch", "r9",
          [("session_id", .jstr "sess-1"), ("batch_id", .jstr "b1"),
           ("orders", .jarr []), ("execution_mode", .jstr "best_effort")])] ∧
    (recvStep (submit_orders_nowait initialState "sess-1" [] "b1" "best_effort" "r9").1
        (.parsed (.jobj exAckEnv))).2.2 = false ∧
    futGet (recvStep (submit_orders_nowait initialState "sess-1" [] "b1" "best_effort" "r9").1
        (.parsed (.jobj exAckEnv))).1
        (submit_orders_nowait initialState "sess-1" [] "b1" "best_effort" "r9").2
      = some (.value (envData exAckEnv))) :=
  ⟨⟨by decide, rfl, rfl⟩,
   submit_orders_nowait_resolution initialState "sess-1" [] "b1" "best_effort" "r9"
     exAckEnv (by decide) rfl rfl⟩

/-- C3 (behaviour at the failing input): an unparsable frame is skipped and
the loop continues with the state unchanged, but a frame that parses to a
JSON value whose top level is not an object (here the array `[1, 2]`) makes
`_dispatch` raise `AttributeError`, which the loop's catch-all turns into
rejecting all pending futures and terminating the loop — the following frame
is never processed. -/
theorem nonobject_frame_kills_loop :
    recvStep exC4State .unparsable = (exC4State, none, false) ∧
    (recvStep exC4State (.parsed (.jarr [.jnum 1, .jnum 2]))).2.2 = true ∧
    futGet (recvStep exC4State (.parsed (.jarr [.jnum 1, .jnum 2]))).1 0
      = some (.failed recvLoopFailure) ∧
    recvLoop exC4State [.parsed (.jarr [.jnum 1, .jnum 2]), .parsed (.jobj exEndEnv)]
      = ((recvStep exC4State (.parsed (.jarr [.jnum 1, .jnum 2]))).1, [], true) :=
  ⟨rfl, rfl, rfl, rfl⟩

theorem dispatchTick_err (st : ClientState) (d : Obj) (sid : String) (store : Store)
    (e : PyErr)
    (hsid : dataStr d "session_id" = some sid) (hne : sid ≠ "")
    (hstore : alookup st.stores sid = some store)
    (herr : (store.apply_tick (.jobj d)).2 = some e) :
    ∃ ps, dispatchTick st d = ({ st with stores := aset st.stores sid ps }, none, some e) := by
  unfold dispatchTick
  rcases hap : store.apply_tick (.jobj d) with ⟨store2, errOpt⟩
  rw [hap] at herr
  simp only at herr
  subst herr
  refine ⟨store2, ?_⟩
  simp only [hsid, strTruthy, if_neg hne, hstore, hap]

/-- C9 (amended): a coercion error raised while applying a tick's candle to
the session's store escapes `_dispatch`; the receive loop's catch-all then
rejects **all** outstanding pending requests and **all** history waiters
(those of other sessions included) with the terminal protocol error and the
loop terminates without reading further frames — the error is fatal to the
whole connection, not only to the offending session. -/
theorem coercion_error_fatal_to_connection
    (st : ClientState) (obj : Obj) (sid : String) (store : Store) (e : PyErr)
    (hclosed : st.closed = false)
    (htype : alookup obj "type" = some (.jstr "tick"))
    (hsid : dataStr (envData obj) "session_id" = some sid) (hne : sid ≠ "")
    (hstore : alookup st.stores sid = some store)
    (herr : (store.apply_tick (.jobj (envData obj))).2 = some e) :
    ∀ fs,
    (recvLoop st (.parsed (.jobj obj) :: fs)).2.2 = true ∧
    (recvLoop st (.parsed (.jobj obj) :: fs)).2.1 = [] ∧
    (∀ p ∈ st.pending_by_request, futGet st p.2 = some .pending →
      futGet (recvLoop st (.parsed (.jobj obj) :: fs)).1 p.2
        = some (.failed recvLoopFailure)) ∧
    (∀ p ∈ st.hist_waiter, ∀ fid, p.2 = some fid → futGet st fid = some .pending →
      futGet (recvLoop st (.parsed (.jobj obj) :: fs)).1 fid
        = some (.failed recvLoopFailure)) := by
  intro fs
  obtain ⟨ps, hps⟩ := dispatchTick_err st (envData obj) sid store e hsid hne hstore herr
  have hdisp : dispatch st obj = ({ st with stores := aset st.stores sid ps }, none, some e) := by
    rw [dispatch_eq_tick _ obj htype, hps]
  have hstep : recvStep st (.parsed (.jobj obj))
      = (fail_all_pending { st with stores := aset st.stores sid ps } recvLoopFailure,
         none, true) := by
    simp only [recvStep]
    rw [hdisp]
  have hloop : recvLoop st (.parsed (.jobj obj) :: fs)
      = (fail_all_pending { st with stores := aset st.stores sid ps } recvLoopFailure,
         [], true) := by
    simp only [recvLoop, hclosed, hstep]
    rfl
  rw [hloop]
  have hview : ∀ fid,
      futGet (fail_all_pending { st with stores := aset st.stores sid ps } recvLoopFailure) fid
      = (failIds recvLoopFailure st.futures
          (st.pending_by_request.map Prod.snd ++ st.hist_waiter.filterMap Prod.snd)).get?
          fid := fun _ => rfl
  refine ⟨rfl, rfl, ?_, ?_⟩
  · intro p hp hpend
    rw [hview]
    exact failIds_get_mem _ _ st.futures p.2
      (List.mem_append_left _ (List.mem_map.2 ⟨p, hp, rfl⟩)) hpend
  · intro p hp fid hfid hpend
    rw [hview]
    exact failIds_get_mem _ _ st.futures fid
      (List.mem_append_right _ (List.mem_filterMap.2 ⟨p, hp, hfid⟩)) hpend

/-- Counterexample to C9 as stated: a bad candle in a tick for session `"s1"`
terminates the receive loop and rejects the pending history waiter of the
unrelated session `"s2"`. -/
theorem coercion_error_rejects_other_session :
    (recvLoop exC9State [.parsed (.jobj exBadTickEnv)]).2.2 = true ∧
    futGet (recvLoop exC9State [.parsed (.jobj exBadTickEnv)]).1 0
      = some (.failed recvLoopFailure) :=
  ⟨rfl, rfl⟩

/-- Witness for C9's amended theorem at the concrete bad-tick input. -/
theorem coercion_error_fatal_to_connection_witness :
    (exC9State.closed = false ∧
     alookup exBadTickEnv "type" = some (.jstr "tick") ∧
     dataStr (envData exBadTickEnv) "session_id" = some "s1" ∧
     ("s1" : String) ≠ "" ∧
     alookup exC9State.stores "s1" = some ⟨[]⟩ ∧
     ((⟨[]⟩ : Store).apply_tick (.jobj (envData exBadTickEnv))).2 =
       some (.valueError "Invalid isoformat string")) ∧
    ((recvLoop exC9State [.parsed (.jobj exBadTickEnv)]).2.2 = true ∧
     (recvLoop exC9State [.parsed (.jobj exBadTickEnv)]).2.1 = [] ∧
     (∀ p ∈ exC9State.pending_by_request, futGet exC9State p.2 = some .pending →
       futGet (recvLoop exC9State [.parsed (.jobj exBadTickEnv)]).1 p.2
         = some (.failed recvLoopFailure)) ∧
     (∀ p ∈ exC9State.hist_waiter, ∀ fid, p.2 = some fid →
       futGet exC9State fid = some .pending →
       futGet (recvLoop exC9State [.parsed (.jobj exBadTickEnv)]).1 fid
         = some (.failed recvLoopFailure))) :=
  ⟨⟨rfl, rfl, rfl, by decide, rfl, rfl⟩,
   coercion_error_fatal_to_connection exC9State exBadTickEnv "s1" ⟨[]⟩
     (.valueError "Invalid isoformat string") rfl rfl rfl (by decide) rfl rfl
     [.parsed (.jobj exBadTickEnv)]⟩

theorem applyCandlesToSeries_cons_ok (ser : Series) (c : JVal) (rest : List JVal)
    (d : Int) (o h lo cl v : Rat) (hc : coerceCandle c = .ok (d, o, h, lo, cl, v)) :
    applyCandlesToSeries ser (c :: rest)
      = applyCandlesToSeries (ser.append1 d o h lo cl v) rest := by
  conv_lhs => unfold applyCandlesToSeries
  rw [hc]

theorem applyCandlesToSeries_cons_err (ser : Series) (c : JVal) (rest : List JVal)
    (e : PyErr) (hc : coerceCandle c = .error e) :
    applyCandlesToSeries ser (c :: rest) = (ser, some e) := by
  conv_lhs => unfold applyCandlesToSeries
  rw [hc]

theorem applyHistoryEntries_cons_ok (st : Store) (sym : String) (arr : JVal)
    (rest : List (String × JVal))
    (h : (applyCandlesToSeries ((alookup st.bySymbol sym).getD Series.empty)
        (iterCandles arr)).2 = none) :
    applyHistoryEntries st ((sym, arr) :: rest)
      = applyHistoryEntries ⟨aset st.bySymbol sym
          (applyCandlesToSeries ((alookup st.bySymbol sym).getD Series.empty)
            (iterCandles arr)).1⟩ rest := by
  conv_lhs => unfold applyHistoryEntries
  rcases hx : applyCandlesToSeries ((alookup st.bySymbol sym).getD Series.empty)
      (iterCandles arr) with ⟨ser2, errOpt⟩
  rw [hx] at h
  simp only at h
  subst h
  simp only [hx]

theorem applyHistoryEntries_cons_err (st : Store) (sym : String) (arr : JVal)
    (rest : List (String × JVal)) (e : PyErr)
    (h : (applyCandlesToSeries ((alookup st.bySymbol sym).getD Series.empty)
        (iterCandles arr)).2 = some e) :
    applyHistoryEntries st ((sym, arr) :: rest)
      = (⟨aset st.bySymbol sym
          (applyCandlesToSeries ((alookup st.bySymbol sym).getD Series.empty)
            (iterCandles arr)).1⟩, some e) := by
  conv_lhs => unfold applyHistoryEntries
  rcases hx : applyCandlesToSeries ((alookup st.bySymbol sym).getD Series.empty)
      (iterCandles arr) with ⟨ser2, errOpt⟩
  rw [hx] at h
  simp only at h
  subst h
  simp only [hx]

theorem applyTickEntries_cons_ok (st : Store) (sym : String) (c : JVal)
    (rest : List (String × JVal)) (d : Int) (o h lo cl v : Rat)
    (hc : coerceCandle c = .ok (d, o, h, lo, cl, v)) :
    applyTickEntries st ((sym, c) :: rest)
      = applyTickEntries ⟨aset st.bySymbol sym
          (((alookup st.bySymbol sym).getD Series.empty).append1 d o h lo cl v)⟩ rest := by
  conv_lhs => unfold applyTickEntries
  rw [hc]

theorem applyTickEntries_cons_err (st : Store) (sym : String) (c : JVal)
    (rest : List (String × JVal)) (e : PyErr) (hc : coerceCandle c = .error e) :
    applyTickEntries st ((sym, c) :: rest)
      = (⟨aset st.bySymbol sym ((alookup st.bySymbol sym).getD Series.empty)⟩, some e) := by
  conv_lhs => unfold applyTickEntries
  rw [hc]

theorem apply_history_snapshot_eq_obj (st : Store) (snap : JVal)
    (entries : List (String × JVal)) (h : pyGet snap "candles" = .jobj entries) :
    st.apply_history_snapshot snap = applyHistoryEntries st entries := by
  unfold Store.apply_history_snapshot
  rw [h]

theorem apply_tick_eq_obj (st : Store) (tick : JVal)
    (entries : List (String × JVal)) (h : pyGet tick "candles" = .jobj entries) :
    st.apply_tick tick = applyTickEntries st entries := by
  unfold Store.apply_tick
  rw [h]

theorem applyTicks_cons_ok (st : Store) (t : JVal) (ts : List JVal)
    (h : (st.apply_tick t).2 = none) :
    applyTicks st (t :: ts) = applyTicks (st.apply_tick t).1 ts := by
  conv_lhs => unfold applyTicks
  rcases hx : st.apply_tick t with ⟨st2, errOpt⟩
  rw [hx] at h
  simp only at h
  subst h
  simp only [hx]

theorem applyTicks_cons_err (st : Store) (t : JVal) (ts : List JVal) (e : PyErr)
    (h : (st.apply_tick t).2 = some e) :
    applyTicks st (t :: ts) = ((st.apply_tick t).1, some e) := by
  conv_lhs => unfold applyTicks
  rcases hx : st.apply_tick t with ⟨st2, errOpt⟩
  rw [hx] at h
  simp only at h
  subst h
  simp only [hx]

theorem Series.empty_balanced : Series.empty.balanced := by
  simp [Series.empty, Series.balanced]

theorem Series.append1_balanced (ser : Series) (d : Int) (o h lo cl v : Rat)
    (hb : ser.balanced) : (ser.append1 d o h lo cl v).balanced := by
  obtain ⟨h1, h2, h3, h4, h5⟩ := hb
  simp only [Series.append1, Series.balanced, List.length_append, List.length_cons,
    List.length_nil]
  omega

theorem applyCandlesToSeries_balanced (cs : List JVal) (ser : Series)
    (hb : ser.balanced) : (applyCandlesToSeries ser cs).1.balanced := by
  induction cs generalizing ser with
  | nil => exact hb
  | cons c rest ih =>
      cases hc : coerceCandle c with
      | error e => rw [applyCandlesToSeries_cons_err ser c rest e hc]; exact hb
      | ok t =>
          obtain ⟨d, o, hi, lo, cl, v⟩ := t
          rw [applyCandlesToSeries_cons_ok ser c rest d o hi lo cl v hc]
          exact ih _ (Series.append1_balanced ser d o hi lo cl v hb)

theorem getD_balanced (st : Store) (sym : String) (hb : st.balanced) :
    ((alookup st.bySymbol sym).getD Series.empty).balanced := by
  cases ha : alookup st.bySymbol sym with
  | none => exact Series.empty_balanced
  | some ser => exact hb (sym, ser) (alookup_mem _ _ _ ha)

theorem aset_balanced (m : List (String × Series)) (sym : String) (ser : Series)
    (hb : Store.balanced ⟨m⟩) (hs : ser.balanced) : Store.balanced ⟨aset m sym ser⟩ := by
  intro p hp
  rcases mem_aset m sym ser p hp with h1 | h1
  · exact hb p h1
  · rw [h1]
    exact hs

theorem applyHistoryEntries_balanced (entries : List (String × JVal)) (st : Store)
    (hb : st.balanced) : (applyHistoryEntries st entries).1.balanced := by
  induction entries generalizing st with
  | nil => exact hb
  | cons p rest ih =>
      obtain ⟨sym, arr⟩ := p
      have hser : ((alookup st.bySymbol sym).getD Series.empty).balanced :=
        getD_balanced st sym hb
      have hser2 : (applyCandlesToSeries ((alookup st.bySymbol sym).getD Series.empty)
          (iterCandles arr)).1.balanced :=
        applyCandlesToSeries_balanced _ _ hser
      cases he : (applyCandlesToSeries ((alookup st.bySymbol sym).getD Series.empty)
          (iterCandles arr)).2 with
      | none =>
          rw [applyHistoryEntries_cons_ok st sym arr rest he]
          exact ih _ (aset_balanced _ sym _ hb hser2)
      | some e =>
          rw [applyHistoryEntries_cons_err st sym arr rest e he]
          exact aset_balanced _ sym _ hb hser2

theorem applyTickEntries_balanced (entries : List (String × JVal)) (st : Store)
    (hb : st.balanced) : (applyTickEntries st entries).1.balanced := by
  induction entries generalizing st with
  | nil => exact hb
  | cons p rest ih =>
      obtain ⟨sym, c⟩ := p
      have hser : ((alookup st.bySymbol sym).getD Series.empty).balanced :=
        getD_balanced st sym hb
      cases hc : coerceCandle c with
      | error e =>
          rw [applyTickEntries_cons_err st sym c rest e hc]
          exact aset_balanced _ sym _ hb hser
      | ok t =>
          obtain ⟨d, o, hi, lo, cl, v⟩ := t
          rw [applyTickEntries_cons_ok st sym c rest d o hi lo cl v hc]
          exact ih _ (aset_balanced _ sym _ hb
            (Series.append1_balanced _ d o hi lo cl v hser))

theorem apply_history_snapshot_balanced (st : Store) (snap : JVal)
    (hb : st.balanced) : (st.apply_history_snapshot snap).1.balanced := by
  unfold Store.apply_history_snapshot
  split
  next entries _ => exact applyHistoryEntries_balanced entries st hb
  next => exact hb

theorem apply_tick_balanced (st : Store) (t : JVal) (hb : st.balanced) :
    (st.apply_tick t).1.balanced := by
  unfold Store.apply_tick
  split
  next entries _ => exact applyTickEntries_balanced entries st hb
  next => exact hb

theorem applyTicks_balanced (ts : List JVal) (st : Store) (hb : st.balanced) :
    (applyTicks st ts).1.balanced := by
  induction ts generalizing st with
  | nil => exact hb
  | cons t rest ih =>
      cases he : (st.apply_tick t).2 with
      | none =>
          rw [applyTicks_cons_ok st t rest he]
          exact ih _ (apply_tick_balanced st t hb)
      | some e =>
          rw [applyTicks_cons_err st t rest e he]
          exact apply_tick_balanced st t hb

theorem from_history_balanced (snap : JVal) : (Store.from_history snap).1.balanced := by
  unfold Store.from_history
  exact apply_history_snapshot_balanced ⟨[]⟩ snap (fun p hp => by cases hp)

theorem getD_len (st : Store) (sym : String) :
    ((alookup st.bySymbol sym).getD Series.empty).date.length = st.lenOf sym := by
  unfold Store.lenOf
  cases alookup st.bySymbol sym with
  | none => rfl
  | some ser => rfl

theorem lenOf_aset_self (m : List (String × Series)) (sym : String) (ser : Series) :
    Store.lenOf ⟨aset m sym ser⟩ sym = ser.date.length := by
  unfold Store.lenOf
  rw [alookup_aset_self]

theorem lenOf_aset_ne (m : List (String × Series)) (sym sym2 : String) (ser : Series)
    (h : sym ≠ sym2) : Store.lenOf ⟨aset m sym2 ser⟩ sym = Store.lenOf ⟨m⟩ sym := by
  unfold Store.lenOf
  rw [alookup_aset_ne _ _ _ _ h]

theorem applyCandlesToSeries_len (cs : List JVal) (ser : Series)
    (h : (applyCandlesToSeries ser cs).2 = none) :
    (applyCandlesToSeries ser cs).1.date.length = ser.date.length + cs.length := by
  induction cs generalizing ser with
  | nil => simp [applyCandlesToSeries]
  | cons c rest ih =>
      cases hc : coerceCandle c with
      | error e =>
          rw [applyCandlesToSeries_cons_err ser c rest e hc] at h
          cases h
      | ok t =>
          obtain ⟨d, o, hi, lo, cl, v⟩ := t
          rw [applyCandlesToSeries_cons_ok ser c rest d o hi lo cl v hc] at h ⊢
          rw [ih _ h]
          simp only [Series.append1, List.length_append, List.length_cons,
            List.length_nil]
          omega

theorem applyHistoryEntries_len (entries : List (String × JVal)) (st : Store)
    (sym : String) (h : (applyHistoryEntries st entries).2 = none) :
    (applyHistoryEntries st entries).1.lenOf sym
      = st.lenOf sym + ((entries.filter (fun p => p.1 == sym)).map
          (fun p => (iterCandles p.2).length)).sum := by
  induction entries generalizing st with
  | nil => simp [applyHistoryEntries]
  | cons p rest ih =>
      obtain ⟨sym2, arr⟩ := p
      cases he : (applyCandlesToSeries ((alookup st.bySymbol sym2).getD Series.empty)
          (iterCandles arr)).2 with
      | some e =>
          rw [applyHistoryEntries_cons_err st sym2 arr rest e he] at h
          cases h
      | none =>
          rw [applyHistoryEntries_cons_ok st sym2 arr rest he] at h ⊢
          rw [ih _ h]
          by_cases hsym : sym2 = sym
          · subst hsym
            rw [lenOf_aset_self, applyCandlesToSeries_len _ _ he, getD_len]
            simp only [List.filter_cons, beq_self_eq_true, if_true, List.map_cons,
              List.sum_cons]
            omega
          · rw [lenOf_aset_ne _ _ _ _ (fun hh => hsym hh.symm)]
            have hbeq : (sym2 == sym) = false := beq_eq_false_iff_ne.mpr hsym
            simp only [List.filter_cons, hbeq, Bool.false_eq_true, if_false]

theorem applyTickEntries_len (entries : List (String × JVal)) (st : Store)
    (sym : String) (h : (applyTickEntries st entries).2 = none) :
    (applyTickEntries st entries).1.lenOf sym = st.lenOf sym + countKey entries sym := by
  induction entries generalizing st with
  | nil => simp [applyTickEntries, countKey]
  | cons p rest ih =>
      obtain ⟨sym2, c⟩ := p
      cases hc : coerceCandle c with
      | error e =>
          rw [applyTickEntries_cons_err st sym2 c rest e hc] at h
          cases h
      | ok t =>
          obtain ⟨d, o, hi, lo, cl, v⟩ := t
          rw [applyTickEntries_cons_ok st sym2 c rest d o hi lo cl v hc] at h ⊢
          rw [ih _ h]
          by_cases hsym : sym2 = sym
          · subst hsym
            rw [lenOf_aset_self]
            simp only [Series.append1, List.length_append, List.length_cons,
              List.length_nil, getD_len]
            unfold countKey
            simp only [List.filter_cons, beq_self_eq_true, if_true, List.length_cons]
            omega
          · rw [lenOf_aset_ne _ _ _ _ (fun hh => hsym hh.symm)]
            have hbeq : (sym2 == sym) = false := beq_eq_false_iff_ne.mpr hsym
            unfold countKey
            simp only [List.filter_cons, hbeq, Bool.false_eq_true, if_false]

theorem apply_history_snapshot_len (st : Store) (snap : JVal) (sym : String)
    (h : (st.apply_history_snapshot snap).2 = none) :
    (st.apply_history_snapshot snap).1.lenOf sym = st.lenOf sym + snapCount snap sym := by
  cases hv : pyGet snap "candles" with
  | jobj entries =>
      rw [apply_history_snapshot_eq_obj st snap entries hv] at h ⊢
      rw [applyHistoryEntries_len entries st sym h]
      unfold snapCount
      rw [hv]
  | jnull => simp [Store.apply_history_snapshot, snapCount, hv]
  | jbool b => simp [Store.apply_history_snapshot, snapCount, hv]
  | jnum q => simp [Store.apply_history_snapshot, snapCount, hv]
  | jstr s2 => simp [Store.apply_history_snapshot, snapCount, hv]
  | jdt t => simp [Store.apply_history_snapshot, snapCount, hv]
  | jarr xs => simp [Store.apply_history_snapshot, snapCount, hv]

theorem apply_tick_len (st : Store) (t : JVal) (sym : String)
    (h : (st.apply_tick t).2 = none) :
    (st.apply_tick t).1.lenOf sym = st.lenOf sym + tickCount t sym := by
  cases hv : pyGet t "candles" with
  | jobj entries =>
      rw [apply_tick_eq_obj st t entries hv] at h ⊢
      rw [applyTickEntries_len entries st sym h]
      unfold tickCount
      rw [hv]
  | jnull => simp [Store.apply_tick, tickCount, hv]
  | jbool b => simp [Store.apply_tick, tickCount, hv]
  | jnum q => simp [Store.apply_tick, tickCount, hv]
  | jstr s2 => simp [Store.apply_tick, tickCount, hv]
  | jdt t2 => simp [Store.apply_tick, tickCount, hv]
  | jarr xs => simp [Store.apply_tick, tickCount, hv]

theorem applyTicks_len (ts : List JVal) (st : Store) (sym : String)
    (h : (applyTicks st ts).2 = none) :
    (applyTicks st ts).1.lenOf sym
      = st.lenOf sym + (ts.map (fun t => tickCount t sym)).sum := by
  induction ts generalizing st with
  | nil => simp [applyTicks]
  | cons t rest ih =>
      cases he : (st.apply_tick t).2 with
      | some e =>
          rw [applyTicks_cons_err st t rest e he] at h
          cases h
      | none =>
          rw [applyTicks_cons_ok st t rest he] at h ⊢
          rw [ih _ h, apply_tick_len st t sym he]
          simp only [List.map_cons, List.sum_cons]
          omega

theorem sum_map_all_one {α : Type} (l : List α) (f : α → Nat)
    (h : ∀ x ∈ l, f x = 1) : (l.map f).sum = l.length := by
  induction l with
  | nil => rfl
  | cons x rest ih =>
      simp only [List.map_cons, List.sum_cons, List.length_cons,
        h x (List.mem_cons_self x rest),
        ih (fun y hy => h y (List.mem_cons_of_mem x hy))]
      omega

/-- C5: after building a store from a warmup snapshot carrying `W` candles for
a symbol and applying `N` ticks each carrying exactly one candle for that
symbol, the symbol's series has length `W + N`, and the six per-symbol field
sequences have equal length (`Store.balanced`) after the warmup and after
every tick prefix — the balance invariant needs no success assumption because
a coercion failure raises before any partial per-candle append. -/
theorem store_warmup_tick_lengths
    (snap : JVal) (ticks : List JVal) (sym : String)
    (hsnap : (Store.from_history snap).2 = none)
    (hticks : (applyTicks (Store.from_history snap).1 ticks).2 = none)
    (hone : ∀ t ∈ ticks, tickCount t sym = 1) :
    Store.balanced (Store.from_history snap).1 ∧
    (∀ ts1 ts2, ticks = ts1 ++ ts2 →
      Store.balanced (applyTicks (Store.from_history snap).1 ts1).1) ∧
    Store.lenOf (applyTicks (Store.from_history snap).1 ticks).1 sym
      = snapCount snap sym + ticks.length := by
  refine ⟨from_history_balanced snap, ?_, ?_⟩
  · intro ts1 ts2 hsplit
    exact applyTicks_balanced ts1 _ (from_history_balanced snap)
  · have hlen0 : Store.lenOf (Store.from_history snap).1 sym = snapCount snap sym := by
      unfold Store.from_history at hsnap ⊢
      rw [apply_history_snapshot_len ⟨[]⟩ snap sym hsnap]
      simp [Store.lenOf, alookup]
    rw [applyTicks_len ticks _ sym hticks, hlen0,
      sum_map_all_one ticks (fun t => tickCount t sym) hone]

/-- Witness for C5: warmup with two `"AAPL"` candles followed by one tick. -/
theorem store_warmup_tick_lengths_witness :
    ((Store.from_history exSnap).2 = none ∧
     (applyTicks (Store.from_history exSnap).1 [exTick]).2 = none ∧
     (∀ t ∈ [exTick], tickCount t "AAPL" = 1)) ∧
    (Store.balanced (Store.from_history exSnap).1 ∧
     (∀ ts1 ts2, ([exTick] : List JVal) = ts1 ++ ts2 →
       Store.balanced (applyTicks (Store.from_history exSnap).1 ts1).1) ∧
     Store.lenOf (applyTicks (Store.from_history exSnap).1 [exTick]).1 "AAPL"
       = snapCount exSnap "AAPL" + ([exTick] : List JVal).length) :=
  ⟨⟨rfl, rfl, fun t ht => by
      rw [List.mem_singleton] at ht
      subst ht
      rfl⟩,
   store_warmup_tick_lengths exSnap [exTick] "AAPL" rfl rfl (fun t ht => by
      rw [List.mem_singleton] at ht
      subst ht
      rfl)⟩

theorem alookup_aset_isSome {α : Type} (m : List (String × α)) (k k2 : String) (v : α)
    (hk : (alookup m k).isSome) (h : (alookup (aset m k v) k2).isSome) :
    (alookup m k2).isSome := by
  by_cases he : k2 = k
  · subst he
    exact hk
  · rw [alookup_aset_ne _ _ _ _ he] at h
    exact h

theorem dispatchSessionCreated_shape (st : ClientState) (d : Obj) (rid : Option String) :
    ∃ fs pbr rm sm, dispatchSessionCreated st d rid
      = { st with futures := fs, pending_by_request := pbr,
                  req_meta_by_rid := rm, session_meta := sm } := by
  unfold dispatchSessionCreated popPending
  dsimp only
  repeat' split
  all_goals exact ⟨_, _, _, _, rfl⟩

theorem dispatchSessionError_shape (st : ClientState) (d : Obj) (rid : Option String) :
    ∃ fs pbr, dispatchSessionError st d rid
      = { st with futures := fs, pending_by_request := pbr } := by
  obtain ⟨fs1, h1⟩ := sessionErrorHistPhase_shape st d
  obtain ⟨fs2, pbr2, h2⟩ := sessionErrorRidPhase_shape (sessionErrorHistPhase st d) d rid
  refine ⟨fs2, pbr2, ?_⟩
  unfold dispatchSessionError
  rw [h2, h1]

theorem dispatchBatchAck_shape (st : ClientState) (d : Obj) (rid : Option String) :
    ∃ fs pbr, dispatchBatchAck st d rid
      = { st with futures := fs, pending_by_request := pbr } := by
  unfold dispatchBatchAck popPending
  dsimp only
  repeat' split
  all_goals exact ⟨_, _, rfl⟩

theorem dispatchHistorySnapshot_parts (st : ClientState) (d : Obj) :
    (dispatchHistorySnapshot st d).1.closed = st.closed ∧
    (((dispatchHistorySnapshot st d).2.1 = none ∧
      (dispatchHistorySnapshot st d).1.stores = st.stores) ∨
     (∃ sid, (dispatchHistorySnapshot st d).2.1 = some (.start sid) ∧
       ∀ sid2, sid2 ≠ sid →
         alookup (dispatchHistorySnapshot st d).1.stores sid2
           = alookup st.stores sid2)) := by
  unfold dispatchHistorySnapshot
  split
  next => exact ⟨rfl, Or.inl ⟨rfl, rfl⟩⟩
  next sid hs =>
    dsimp only
    rcases hfh : Store.from_history (.jobj d) with ⟨store, eo⟩
    cases eo with
    | some e =>
        dsimp only
        exact ⟨rfl, Or.inl ⟨rfl, rfl⟩⟩
    | none =>
        dsimp only
        repeat' split
        all_goals
          exact ⟨rfl, Or.inr ⟨sid, rfl,
            fun sid2 hne => alookup_aset_ne _ _ _ _ hne⟩⟩

theorem dispatchTick_parts (st : ClientState) (d : Obj) :
    (dispatchTick st d).1.closed = st.closed ∧
    (∀ sid2, (alookup (dispatchTick st d).1.stores sid2).isSome →
      (alookup st.stores sid2).isSome) ∧
    ((dispatchTick st d).2.1 = none ∨
     ∃ sid, (dispatchTick st d).2.1 = some (.tick sid) ∧
       (alookup st.stores sid).isSome) := by
  unfold dispatchTick
  split
  next => exact ⟨rfl, fun _ h => h, Or.inl rfl⟩
  next sid hs =>
    split
    next store heq =>
      dsimp only
      rcases hap : store.apply_tick (.jobj d) with ⟨s2, eo⟩
      have hks : (alookup st.stores sid).isSome := by
        rw [heq]
        rfl
      cases eo with
      | some e =>
          dsimp only
          exact ⟨rfl, fun sid2 h => alookup_aset_isSome _ _ _ _ hks h, Or.inl rfl⟩
      | none =>
          dsimp only
          exact ⟨rfl, fun sid2 h => alookup_aset_isSome _ _ _ _ hks h,
            Or.inr ⟨sid, rfl, hks⟩⟩
    next heq => exact ⟨rfl, fun _ h => h, Or.inl rfl⟩

theorem dispatchExecutionReport_parts (st : ClientState) (d : Obj) :
    (dispatchExecutionReport st d).1.closed = st.closed ∧
    (dispatchExecutionReport st d).1.stores = st.stores ∧
    ((dispatchExecutionReport st d).2 = none ∨
     ∃ sid, (dispatchExecutionReport st d).2 = some (.fill sid) ∧
       (alookup st.stores sid).isSome) := by
  unfold dispatchExecutionReport
  split
  next => exact ⟨rfl, rfl, Or.inl rfl⟩
  next sid hs =>
    dsimp only
    split
    next val heq =>
      refine ⟨rfl, rfl, Or.inr ⟨sid, rfl, ?_⟩⟩
      rw [show alookup st.stores sid = some val from heq]
      rfl
    next => exact ⟨rfl, rfl, Or.inl rfl⟩

theorem dispatchAccountSnapshot_parts (st : ClientState) (d : Obj) :
    (dispatchAccountSnapshot st d).1.closed = st.closed ∧
    (dispatchAccountSnapshot st d).1.stores = st.stores ∧
    ((dispatchAccountSnapshot st d).2 = none ∨
     ∃ sid, (dispatchAccountSnapshot st d).2 = some (.account sid) ∧
       (alookup st.stores sid).isSome) := by
  unfold dispatchAccountSnapshot
  split
  next => exact ⟨rfl, rfl, Or.inl rfl⟩
  next sid hs =>
    dsimp only
    split
    next val heq =>
      refine ⟨rfl, rfl, Or.inr ⟨sid, rfl, ?_⟩⟩
      rw [show alookup st.stores sid = some val from heq]
      rfl
    next => exact ⟨rfl, rfl, Or.inl rfl⟩

theorem dispatchSimulationEnd_parts (st : ClientState) (d : Obj) :
    (dispatchSimulationEnd st d).1.closed = st.closed ∧
    (dispatchSimulationEnd st d).1.stores = st.stores ∧
    ((dispatchSimulationEnd st d).2 = none ∨
     ∃ sid, (dispatchSimulationEnd st d).2 = some (.sessionEnd sid) ∧
       (alookup st.stores sid).isSome) := by
  unfold dispatchSimulationEnd
  split
  next => exact ⟨rfl, rfl, Or.inl rfl⟩
  next sid hs =>
    obtain ⟨fs, ew, hsh⟩ := simulationEndResolveWaiter_shape st sid d
    dsimp only
    rw [hsh]
    split
    next val heq =>
      refine ⟨rfl, rfl, Or.inr ⟨sid, rfl, ?_⟩⟩
      rw [show alookup st.stores sid = some val from heq]
      rfl
    next => exact ⟨rfl, rfl, Or.inl rfl⟩

theorem dispatch_parts (st : ClientState) (obj : Obj) :
    (dispatch st obj).1.closed = st.closed ∧
    (∀ ev sid, (dispatch st obj).2.1 = some ev → needsStore ev sid →
      (alookup st.stores sid).isSome) ∧
    (∀ sid, (alookup (dispatch st obj).1.stores sid).isSome →
      (alookup st.stores sid).isSome ∨ (dispatch st obj).2.1 = some (.start sid)) := by
  unfold dispatch
  split_ifs with h1 h2 h3 h4 h5 h6 h7 h8
  · obtain ⟨fs, pbr, rm, sm, hsh⟩ :=
      dispatchSessionCreated_shape st (envData obj) (envRid obj)
    rw [hsh]
    exact ⟨rfl, fun ev sid hev hns => by simp at hev, fun sid h => Or.inl h⟩
  · obtain ⟨hc, hrest⟩ := dispatchHistorySnapshot_parts st (envData obj)
    refine ⟨hc, ?_, ?_⟩
    · intro ev sid hev hns
      rcases hrest with ⟨he0, _⟩ | ⟨sid0, he0, _⟩
      · rw [he0] at hev
        cases hev
      · rw [he0] at hev
        cases hev
        rcases hns with h | h | h | h <;> cases h
    · intro sid h
      rcases hrest with ⟨he0, hst⟩ | ⟨sid0, he0, hst⟩
      · rw [hst] at h
        exact Or.inl h
      · by_cases hse : sid = sid0
        · subst hse
          exact Or.inr he0
        · rw [hst sid hse] at h
          exact Or.inl h
  · obtain ⟨fs, pbr, hsh⟩ := dispatchSessionError_shape st (envData obj) (envRid obj)
    rw [hsh]
    exact ⟨rfl, fun ev sid hev hns => by simp at hev, fun sid h => Or.inl h⟩
  · obtain ⟨fs, pbr, hsh⟩ := dispatchBatchAck_shape st (envData obj) (envRid obj)
    rw [hsh]
    exact ⟨rfl, fun ev sid hev hns => by simp at hev, fun sid h => Or.inl h⟩
  · obtain ⟨hc, hpres, hev0⟩ := dispatchTick_parts st (envData obj)
    refine ⟨hc, ?_, fun sid h => Or.inl (hpres sid h)⟩
    intro ev sid hev hns
    rcases hev0 with he0 | ⟨sid0, he0, hst⟩
    · rw [he0] at hev
      cases hev
    · rw [he0] at hev
      cases hev
      rcases hns with h | h | h | h
      · cases h
        exact hst
      · cases h
      · cases h
      · cases h
  · dsimp only
    obtain ⟨hc, hst, hev0⟩ := dispatchExecutionReport_parts st (envData obj)
    refine ⟨hc, ?_, ?_⟩
    · intro ev sid hev hns
      rcases hev0 with he0 | ⟨sid0, he0, hsome⟩
      · rw [he0] at hev
        cases hev
      · rw [he0] at hev
        cases hev
        rcases hns with h | h | h | h
        · cases h
        · cases h
          exact hsome
        · cases h
        · cases h
    · intro sid h
      rw [hst] at h
      exact Or.inl h
  · dsimp only
    obtain ⟨hc, hst, hev0⟩ := dispatchAccountSnapshot_parts st (envData obj)
    refine ⟨hc, ?_, ?_⟩
    · intro ev sid hev hns
      rcases hev0 with he0 | ⟨sid0, he0, hsome⟩
      · rw [he0] at hev
        cases hev
      · rw [he0] at hev
        cases hev
        rcases hns with h | h | h | h
        · cases h
        · cases h
        · cases h
          exact hsome
        · cases h
    · intro sid h
      rw [hst] at h
      exact Or.inl h
  · dsimp only
    obtain ⟨hc, hst, hev0⟩ := dispatchSimulationEnd_parts st (envData obj)
    refine ⟨hc, ?_, ?_⟩
    · intro ev sid hev hns
      rcases hev0 with he0 | ⟨sid0, he0, hsome⟩
      · rw [he0] at hev
        cases hev
      · rw [he0] at hev
        cases hev
        rcases hns with h | h | h | h
        · cases h
        · cases h
        · cases h
        · cases h
          exact hsome
    · intro sid h
      rw [hst] at h
      exact Or.inl h
  · exact ⟨rfl, fun ev sid hev hns => by simp at hev, fun sid h => Or.inl h⟩

theorem recvStep_parts (st : ClientState) (f : RawFrame) :
    (recvStep st f).1.closed = st.closed ∧
    (∀ ev sid, (recvStep st f).2.1 = some ev → needsStore ev sid →
      (alookup st.stores sid).isSome) ∧
    (∀ sid, (alookup (recvStep st f).1.stores sid).isSome →
      (alookup st.stores sid).isSome ∨ (recvStep st f).2.1 = some (.start sid)) := by
  cases f with
  | unparsable => exact ⟨rfl, fun ev sid h hns => by simp [recvStep] at h, fun sid h => Or.inl h⟩
  | parsed v =>
      cases v with
      | jobj fields =>
          obtain ⟨hc, hev, hsto⟩ := dispatch_parts st fields
          simp only [recvStep]
          split
          next herr => exact ⟨hc, hev, hsto⟩
          next e herr => exact ⟨hc, hev, hsto⟩
      | jnull =>
          exact ⟨rfl, fun ev sid h hns => by simp [recvStep] at h, fun sid h => Or.inl h⟩
      | jbool b =>
          exact ⟨rfl, fun ev sid h hns => by simp [recvStep] at h, fun sid h => Or.inl h⟩
      | jnum q =>
          exact ⟨rfl, fun ev sid h hns => by simp [recvStep] at h, fun sid h => Or.inl h⟩
      | jstr s2 =>
          exact ⟨rfl, fun ev sid h hns => by simp [recvStep] at h, fun sid h => Or.inl h⟩
      | jdt t =>
          exact ⟨rfl, fun ev sid h hns => by simp [recvStep] at h, fun sid h => Or.inl h⟩
      | jarr xs =>
          exact ⟨rfl, fun ev sid h hns => by simp [recvStep] at h, fun sid h => Or.inl h⟩

theorem recvLoop_closed (fs : List RawFrame) (st : ClientState) :
    (recvLoop st fs).1.closed = st.closed := by
  induction fs generalizing st with
  | nil => rfl
  | cons f rest ih =>
      simp only [recvLoop]
      split
      next => rfl
      next =>
        split
        next => exact (recvStep_parts st f).1
        next =>
          rw [ih (recvStep st f).1]
          exact (recvStep_parts st f).1

theorem recvLoop_of_closed (fs : List RawFrame) (st : ClientState) (h : st.closed = true) :
    recvLoop st fs = (st, [], false) := by
  cases fs with
  | nil => rfl
  | cons f rest => simp [recvLoop, h]

theorem recvLoop_cons_go (st : ClientState) (f : RawFrame) (rest : List RawFrame)
    (hcl : st.closed = false) :
    recvLoop st (f :: rest)
      = if (recvStep st f).2.2
        then ((recvStep st f).1, (recvStep st f).2.1.toList, true)
        else ((recvLoop (recvStep st f).1 rest).1,
              (recvStep st f).2.1.toList ++ (recvLoop (recvStep st f).1 rest).2.1,
              (recvLoop (recvStep st f).1 rest).2.2) := by
  simp only [recvLoop, hcl, Bool.false_eq_true, if_false]

theorem recvLoop_trace_start (fs : List RawFrame) (st : ClientState) (acc : List CbEvent)
    (hinv : ∀ sid, (alookup st.stores sid).isSome → CbEvent.start sid ∈ acc) :
    ∀ i ev sid, (recvLoop st fs).2.1.get? i = some ev → needsStore ev sid →
      CbEvent.start sid ∈ acc ∨
      ∃ j, j < i ∧ (recvLoop st fs).2.1.get? j = some (CbEvent.start sid) := by
  induction fs generalizing st acc with
  | nil =>
      intro i ev sid hget hns
      simp [recvLoop] at hget
  | cons f rest ih =>
      intro i ev sid hget hns
      obtain ⟨hc, hevP, hstoP⟩ := recvStep_parts st f
      by_cases hcl : st.closed = true
      · rw [recvLoop_of_closed _ _ hcl] at hget
        simp at hget
      · have hcl' : st.closed = false := Bool.eq_false_iff.2 hcl
        rw [recvLoop_cons_go st f rest hcl'] at hget ⊢
        by_cases hstop : (recvStep st f).2.2 = true
        · rw [if_pos hstop] at hget
          cases hov : (recvStep st f).2.1 with
          | none =>
              rw [hov] at hget
              simp at hget
          | some ev2 =>
              rw [hov] at hget
              cases i with
              | zero =>
                  simp only [Option.toList_some, List.get?_cons_zero,
                    Option.some.injEq] at hget
                  rw [← hget] at hns
                  exact Or.inl (hinv sid (hevP ev2 sid hov hns))
              | succ n => simp at hget
        · rw [if_neg hstop] at hget ⊢
          have hinv' : ∀ sid2, (alookup (recvStep st f).1.stores sid2).isSome →
              CbEvent.start sid2 ∈ acc ++ (recvStep st f).2.1.toList := by
            intro sid2 hh
            rcases hstoP sid2 hh with h1 | h1
            · exact List.mem_append_left _ (hinv sid2 h1)
            · refine List.mem_append_right _ ?_
              rw [h1]
              exact List.mem_singleton_self _
          by_cases hlt : i < (recvStep st f).2.1.toList.length
          · rw [List.get?_append hlt] at hget
            cases hov : (recvStep st f).2.1 with
            | none =>
                rw [hov] at hget
                simp at hget
            | some ev2 =>
                rw [hov] at hget
                cases i with
                | zero =>
                    simp only [Option.toList_some, List.get?_cons_zero,
                      Option.some.injEq] at hget
                    rw [← hget] at hns
                    exact Or.inl (hinv sid (hevP ev2 sid hov hns))
                | succ n => simp at hget
          · have hge : (recvStep st f).2.1.toList.length ≤ i := Nat.le_of_not_lt hlt
            rw [List.get?_append_right hge] at hget
            have hrec := ih (recvStep st f).1 (acc ++ (recvStep st f).2.1.toList) hinv'
              (i - (recvStep st f).2.1.toList.length) ev sid hget hns
            rcases hrec with hmem | ⟨j, hj, hjget⟩
            · rcases List.mem_append.1 hmem with hm | hm
              · exact Or.inl hm
              · right
                have hpos : 0 < (recvStep st f).2.1.toList.length :=
                  List.length_pos.2 (List.ne_nil_of_mem hm)
                refine ⟨0, by omega, ?_⟩
                dsimp only
                rw [List.get?_append hpos]
                cases hov : (recvStep st f).2.1 with
                | none =>
                    rw [hov] at hm
                    simp at hm
                | some ev2 =>
                    rw [hov] at hm
                    simp only [Option.toList_some, List.mem_singleton] at hm
                    simp [hm]
            · right
              refine ⟨(recvStep st f).2.1.toList.length + j, by omega, ?_⟩
              dsimp only
              rw [List.get?_append_right (by omega)]
              have hidx : (recvStep st f).2.1.toList.length + j
                  - (recvStep st f).2.1.toList.length = j := by omega
              rw [hidx]
              exact hjget

theorem recvLoop_append (fs1 fs2 : List RawFrame) (st : ClientState)
    (h : (recvLoop st fs1).2.2 = false) :
    recvLoop st (fs1 ++ fs2)
      = ((recvLoop (recvLoop st fs1).1 fs2).1,
         (recvLoop st fs1).2.1 ++ (recvLoop (recvLoop st fs1).1 fs2).2.1,
         (recvLoop (recvLoop st fs1).1 fs2).2.2) := by
  induction fs1 generalizing st with
  | nil => simp [recvLoop]
  | cons f rest ih =>
      cases hcl : st.closed with
      | true =>
          rw [List.cons_append, recvLoop_of_closed (f :: (rest ++ fs2)) st hcl,
            recvLoop_of_closed (f :: rest) st hcl, recvLoop_of_closed fs2 st hcl]
          simp
      | false =>
          have hgo1 := recvLoop_cons_go st f rest hcl
          have hgo2 := recvLoop_cons_go st f (rest ++ fs2) hcl
          rw [List.cons_append, hgo2, hgo1]
          by_cases hstop : (recvStep st f).2.2 = true
          · rw [hgo1, if_pos hstop] at h
            simp at h
          · rw [if_neg hstop, if_neg hstop]
            rw [hgo1, if_neg hstop] at h
            have h' : (recvLoop (recvStep st f).1 rest).2.2 = false := h
            rw [ih (recvStep st f).1 h']
            simp [List.append_assoc]

/-- C8: over any inbound frame stream from a fresh connection, (1) every
`on_tick`, `on_fill`, `on_account_snapshot` and `on_session_end` invocation
for a session is strictly preceded in the callback trace by the session's
`on_session_start` invocation; and (2) when the frame dispatched after a
prefix `fs1` invokes `on_session_end`, that invocation sits right after the
prefix's callbacks in the trace, so every `on_tick` fired by a tick that
arrived before the `simulation_end` frame occurs strictly before it. -/
theorem callback_ordering (frames : List RawFrame) :
    (∀ i ev sid, (recvLoop initialState frames).2.1.get? i = some ev →
      needsStore ev sid →
      ∃ j, j < i ∧ (recvLoop initialState frames).2.1.get? j = some (.start sid)) ∧
    (∀ fs1 f fs2 sid, frames = fs1 ++ f :: fs2 →
      (recvLoop initialState fs1).2.2 = false →
      (recvStep (recvLoop initialState fs1).1 f).2.1 = some (.sessionEnd sid) →
      (recvLoop initialState frames).2.1.get? (recvLoop initialState fs1).2.1.length
        = some (.sessionEnd sid) ∧
      (∀ i ev2, (recvLoop initialState fs1).2.1.get? i = some ev2 →
        i < (recvLoop initialState fs1).2.1.length ∧
        (recvLoop initialState frames).2.1.get? i = some ev2)) := by
  constructor
  · intro i ev sid hget hns
    have h := recvLoop_trace_start frames initialState []
      (fun sid2 hh => by simp [initialState, alookup] at hh) i ev sid hget hns
    rcases h with hmem | hj
    · cases hmem
    · exact hj
  · intro fs1 f fs2 sid hsplit hnostop hend
    subst hsplit
    have happ := recvLoop_append fs1 (f :: fs2) initialState hnostop
    have hcl : (recvLoop initialState fs1).1.closed = false := by
      rw [recvLoop_closed]
      rfl
    have hgo := recvLoop_cons_go (recvLoop initialState fs1).1 f fs2 hcl
    constructor
    · rw [happ]
      dsimp only
      rw [List.get?_append_right (Nat.le_refl _), Nat.sub_self, hgo]
      by_cases hstop : (recvStep (recvLoop initialState fs1).1 f).2.2 = true
      · rw [if_pos hstop]
        dsimp only
        rw [hend]
        rfl
      · rw [if_neg hstop]
        dsimp only
        rw [hend]
        rfl
    · intro i ev2 hget
      have hlen : i < (recvLoop initialState fs1).2.1.length := by
        by_contra hc
        rw [List.get?_eq_none.2 (Nat.le_of_not_lt hc)] at hget
        cases hget
      refine ⟨hlen, ?_⟩
      rw [happ]
      dsimp only
      rw [List.get?_append hlen]
      exact hget

theorem callback_ordering_witness :
    (∃ j, j < 1 ∧ (recvLoop initialState exC8Frames).2.1.get? j
        = some (CbEvent.start "s1")) ∧
    ((recvLoop initialState exC8Frames).2.1.get?
        (recvLoop initialState exC8Prefix).2.1.length
      = some (CbEvent.sessionEnd "s1") ∧
     (∀ i ev2, (recvLoop initialState exC8Prefix).2.1.get? i = some ev2 →
        i < (recvLoop initialState exC8Prefix).2.1.length ∧
        (recvLoop initialState exC8Frames).2.1.get? i = some ev2)) := by
  refine ⟨?_, ?_⟩
  · exact (callback_ordering exC8Frames).1 1 (CbEvent.tick "s1") "s1" rfl (by decide)
  · exact (callback_ordering exC8Frames).2 exC8Prefix (.parsed (.jobj exEndEnv)) [] "s1"
      rfl rfl rfl

end Simutrador
